import Mathlib

/-!
Shallow embedding of `src/treasury_sim/generators.py`.

Modelling conventions:
* The global NumPy/`random` pseudo-random state is modelled by an oracle
  `Oracle : Nat → ℚ` (the realized stream of draws) together with a cursor
  `Nat` giving the position of the next draw.  `set_seed` replaces the global
  state by the stream determined by the seed: the map from seeds to streams is
  an explicit parameter `ss : Nat → Oracle` (the semantics of the external
  PRNG), so all theorems quantify over it.
* Each sampling primitive consumes exactly as many stream values as the
  corresponding library call consumes, in source order.  Distributional
  transforms that matter to a claim (affine maps for `normal`/`uniform`) are
  applied to the raw draw; for `lognormal`/`poisson` (transcendental /
  algorithmic transforms) the oracle value is read as the realized sample
  itself, the distribution parameters shaping only the external distribution.
* `datetime.now()` is an explicit input `now : DateTime` (day number since
  1970-01-01 plus seconds of day; sub-second precision is not modelled).
* pandas DataFrames are lists of row structures; pandas `KeyError` on
  post-processing an empty frame (column access / pivot) is an `Except.error`.
-/

/-- Realized stream of raw random draws (one rational per draw).
`np.random.random()` samples lie in `[0,1)`, standard-normal samples in `ℝ`
(any rational), Poisson samples are non-negative integers. -/
abbrev Oracle := Nat → ℚ

/-- Global pseudo-random state: current stream and cursor of the next draw. -/
abbrev RNGState := Oracle × Nat

/-- `set_seed(seed)` (generators.py lines 19-22): deterministically
reinitializes the global pseudo-random state from the seed, discarding the
previous state.  `ss` maps each seed to its realized draw stream. -/
def set_seed (ss : Nat → Oracle) (seed : Nat) (_g : RNGState) : RNGState :=
  (ss seed, 0)

/-- `np.random.random()`: one draw, value in `[0,1)`. -/
def npRandom (ω : Oracle) (k : Nat) : ℚ × Nat := (ω k, k + 1)

/-- `np.random.normal(mu, sigma)`: one standard-normal draw `z`, value
`mu + sigma * z`. -/
def npNormal (ω : Oracle) (mu sigma : ℚ) (k : Nat) : ℚ × Nat :=
  (mu + sigma * ω k, k + 1)

/-- `np.random.lognormal(mu, sigma)`: one draw; the oracle value is the
realized (positive) sample; `mu`, `sigma` shape only the external
distribution. -/
def npLognormal (ω : Oracle) (_mu _sigma : ℚ) (k : Nat) : ℚ × Nat :=
  (ω k, k + 1)

/-- `np.random.uniform(a, b)`: one draw `z ∈ [0,1)`, value `a + (b-a)*z`. -/
def npUniform (ω : Oracle) (a b : ℚ) (k : Nat) : ℚ × Nat :=
  (a + (b - a) * ω k, k + 1)

/-- `np.random.poisson(lam)`: one draw; the realized count is the oracle
value's floor (a non-negative integer for genuine streams). -/
def npPoisson (ω : Oracle) (_lam : ℚ) (k : Nat) : Nat × Nat :=
  ((ω k).floor.toNat, k + 1)

/-- `np.random.randint(lo, hi)`: one draw, integer value in `[lo, hi)`. -/
def npRandint (ω : Oracle) (lo hi : Int) (k : Nat) : Int × Nat :=
  (lo + Int.emod (ω k).floor (hi - lo), k + 1)

/-- `np.random.choice(l)` / `random.choice(l)`: one draw selecting an element
of the (non-empty) pool. -/
def npChoice {α : Type} (ω : Oracle) (l : List α) (d : α) (k : Nat) : α × Nat :=
  (l.getD ((ω k).floor.toNat % l.length) d, k + 1)

/-- `np.random.choice(l, p=...)`: same consumption as `npChoice`; the weights
shape only the external distribution. -/
def npChoiceP {α : Type} (ω : Oracle) (l : List α) (_p : List ℚ) (d : α) (k : Nat) : α × Nat :=
  npChoice ω l d k

/-- `random.choices(pool, k=n)` joined into a string (n draws, one per
character). -/
def pyChoicesStr (ω : Oracle) (l : List Char) (n : Nat) (k : Nat) : String × Nat :=
  match n with
  | 0 => ("", k)
  | m + 1 =>
    let ck := npChoice ω l 'A' k
    let rest := pyChoicesStr ω l m ck.2
    (String.mk [ck.1] ++ rest.1, rest.2)

/-- Zero-padded decimal rendering, as in Python `f'{n:03d}'`. -/
def padNum (w n : Nat) : String :=
  let s := toString n
  String.mk (List.replicate (w - s.length) '0') ++ s

/-- Python `round(x, digits)` (ties modelled half-up; tie behaviour is not
load-bearing for any claim). -/
def roundTo (digits : Int) (x : ℚ) : ℚ :=
  let p : ℚ := (10 : ℚ) ^ digits
  (round (x * p) : ℚ) / p

/-- Python `datetime`: day number since 1970-01-01 plus seconds of day. -/
structure DateTime where
  day : Int
  sec : Nat
deriving Repr, DecidableEq, Inhabited

/-- Proleptic-Gregorian civil date `(year, month, day)` of a day number
(days since 1970-01-01). -/
def civilFromDays (z0 : Int) : Int × Nat × Nat :=
  let z := z0 + 719468
  let era : Int := Int.ediv z 146097
  let doe : Nat := (Int.emod z 146097).toNat
  let yoe : Nat := (doe - doe / 1460 + doe / 36524 - doe / 146096) / 365
  let doy : Nat := doe - (365 * yoe + yoe / 4 - yoe / 100)
  let mp : Nat := (5 * doy + 2) / 153
  let d : Nat := doy - (153 * mp + 2) / 5 + 1
  let m : Nat := if mp < 10 then mp + 3 else mp - 9
  (yoe + era * 400 + (if m ≤ 2 then 1 else 0), m, d)

/-- Python `datetime.month`. -/
def DateTime.month (t : DateTime) : Nat := (civilFromDays t.day).2.1

/-- Python `datetime.day` (day of month). -/
def DateTime.dayOfMonth (t : DateTime) : Nat := (civilFromDays t.day).2.2

/-- Python `datetime.weekday()`: Monday = 0 … Sunday = 6. -/
def DateTime.weekday (t : DateTime) : Nat := (Int.emod (t.day + 3) 7).toNat

/-- `t + timedelta(days=n)`. -/
def DateTime.addDays (t : DateTime) (n : Int) : DateTime := ⟨t.day + n, t.sec⟩

/-- `t - timedelta(days=n)`. -/
def DateTime.subDays (t : DateTime) (n : Int) : DateTime := ⟨t.day - n, t.sec⟩

/-- `t + timedelta(hours=n)`. -/
def DateTime.addHours (t : DateTime) (n : Nat) : DateTime :=
  let total := t.sec + 3600 * n
  ⟨t.day + (total / 86400 : Nat), total % 86400⟩

/-- `t.replace(hour=h, minute=m)` (seconds of `t` are kept). -/
def DateTime.replaceHM (t : DateTime) (h m : Nat) : DateTime :=
  ⟨t.day, h * 3600 + m * 60 + t.sec % 60⟩

/-- Boolean date order used to model `df.sort_values('date')`. -/
def dtLeb (a b : DateTime) : Bool :=
  decide (a.day < b.day ∨ (a.day = b.day ∧ a.sec ≤ b.sec))

-- Batteries marks the `Rat` arithmetic operations `@[irreducible]`; restore
-- default reducibility locally so that concrete runs of the generators can
-- be evaluated by `decide`/`rfl` in witnesses and counterexamples.
attribute [local semireducible] Rat.add Rat.mul Rat.sub Rat.inv Rat.ofScientific

/-! ## `generate_cash_flows` (generators.py lines 29-186) -/

/-- Row schema of `generate_cash_flows`. -/
structure CashFlowRow where
  date : DateTime
  account_id : String
  transaction_id : String
  type : String
  amount : ℚ
  currency : String
  category : String
  counterparty : String
  description : String
  is_recurring : Bool
deriving Repr, DecidableEq, Inhabited

/-- `account_currencies` dict comprehension (lines 70-73): one weighted
choice per account, in ascending account order. -/
def cfAccountCurrencies (ω : Oracle) (n k : Nat) : List String × Nat :=
  match n with
  | 0 => ([], k)
  | m + 1 =>
    let c := npChoiceP ω ["USD", "EUR", "TRY"] [2/5, 3/10, 3/10] "USD" k
    let rest := cfAccountCurrencies ω m c.2
    (c.1 :: rest.1, rest.2)

/-- Customer receivable block (lines 97-111). -/
def cfReceivable (ω : Oracle) (date : DateTime) (accId currency : String)
    (memult : ℚ) (txn k : Nat) : List CashFlowRow × Nat × Nat :=
  let r := npRandom ω k
  if r.1 < 3/10 * memult then
    let a := npLognormal ω 12 (3/2) r.2
    let cust := npRandint ω 1 50 a.2
    ([{ date, account_id := accId,
        transaction_id := "TXN_" ++ padNum 8 txn,
        type := "INFLOW", amount := roundTo 2 a.1, currency,
        category := "RECEIVABLE",
        counterparty := "CUST_" ++ padNum 3 cust.1.toNat,
        description := "Customer payment - Invoice",
        is_recurring := false }], txn + 1, cust.2)
  else ([], txn, r.2)

/-- Interest income block (lines 114-128). -/
def cfInterest (ω : Oracle) (date : DateTime) (accId currency : String)
    (txn k : Nat) : List CashFlowRow × Nat × Nat :=
  if date.dayOfMonth = 1 then
    let a := npUniform ω 5000 50000 k
    ([{ date, account_id := accId,
        transaction_id := "TXN_" ++ padNum 8 txn,
        type := "INFLOW", amount := roundTo 2 a.1, currency,
        category := "INTEREST", counterparty := "BANK_INTEREST",
        description := "Monthly interest income",
        is_recurring := true }], txn + 1, a.2)
  else ([], txn, k)

/-- Supplier payment inner loop (lines 134-148): each iteration draws the
amount then the counterparty number. -/
def cfSupplierLoop (ω : Oracle) (date : DateTime) (accId currency : String) :
    Nat → Nat → Nat → List CashFlowRow × Nat × Nat
  | 0, txn, k => ([], txn, k)
  | m + 1, txn, k =>
    let a := npLognormal ω 10 (6/5) k
    let sup := npRandint ω 1 200 a.2
    let row : CashFlowRow :=
      { date, account_id := accId,
        transaction_id := "TXN_" ++ padNum 8 txn,
        type := "OUTFLOW", amount := -(roundTo 2 a.1), currency,
        category := "SUPPLIER",
        counterparty := "SUPP_" ++ padNum 3 sup.1.toNat,
        description := "Supplier payment",
        is_recurring := false }
    let rest := cfSupplierLoop ω date accId currency m (txn + 1) sup.2
    (row :: rest.1, rest.2)

/-- Salary block (lines 151-165). -/
def cfSalary (ω : Oracle) (date : DateTime) (accId currency : String)
    (txn k : Nat) : List CashFlowRow × Nat × Nat :=
  if date.dayOfMonth = 28 then
    let a := npUniform ω 500000 2000000 k
    ([{ date, account_id := accId,
        transaction_id := "TXN_" ++ padNum 8 txn,
        type := "OUTFLOW", amount := -(roundTo 2 a.1), currency,
        category := "SALARY", counterparty := "PAYROLL",
        description := "Monthly payroll",
        is_recurring := true }], txn + 1, a.2)
  else ([], txn, k)

/-- Tax block (lines 168-182): the drawn amount is scaled by the
quarter-end multiplier. -/
def cfTax (ω : Oracle) (date : DateTime) (accId currency : String)
    (qmult : ℚ) (txn k : Nat) : List CashFlowRow × Nat × Nat :=
  if (date.month = 1 ∨ date.month = 4 ∨ date.month = 7 ∨ date.month = 10) ∧
      date.dayOfMonth = 15 then
    let a := npUniform ω 100000 500000 k
    ([{ date, account_id := accId,
        transaction_id := "TXN_" ++ padNum 8 txn,
        type := "OUTFLOW", amount := -(roundTo 2 (a.1 * qmult)), currency,
        category := "TAX", counterparty := "TAX_AUTHORITY",
        description := "Quarterly tax payment",
        is_recurring := true }], txn + 1, a.2)
  else ([], txn, k)

/-- Per-day, per-account body (lines 84-182).  Both the inflow and outflow
blocks are skipped on weekends, so a weekend contributes no rows and no
draws. -/
def cfCell (ω : Oracle) (date : DateTime) (aIdx : Nat) (currency : String)
    (txn k : Nat) : List CashFlowRow × Nat × Nat :=
  let accId := "ACC_" ++ padNum 3 aIdx
  let memult : ℚ := if date.dayOfMonth ≥ 25 then 2 else 1
  let qmult : ℚ :=
    if (date.month = 3 ∨ date.month = 6 ∨ date.month = 9 ∨ date.month = 12) ∧
        date.dayOfMonth ≥ 20 then 3/2 else 1
  if date.weekday ≥ 5 then ([], txn, k)
  else
    let rcv := cfReceivable ω date accId currency memult txn k
    let intr := cfInterest ω date accId currency rcv.2.1 rcv.2.2
    let pois := npPoisson ω 3 intr.2.2
    let nSup := ((pois.1 : ℚ) * memult).floor.toNat
    let sup := cfSupplierLoop ω date accId currency nSup intr.2.1 pois.2
    let sal := cfSalary ω date accId currency sup.2.1 sup.2.2
    let tax := cfTax ω date accId currency qmult sal.2.1 sal.2.2
    (rcv.1 ++ intr.1 ++ sup.1 ++ sal.1 ++ tax.1, tax.2)

/-- Inner loop over accounts (line 84). -/
def cfAccountsLoop (ω : Oracle) (currencies : List String) (date : DateTime) :
    List Nat → Nat → Nat → List CashFlowRow × Nat × Nat
  | [], txn, k => ([], txn, k)
  | a :: rest, txn, k =>
    let cell := cfCell ω date a (currencies.getD a "USD") txn k
    let r := cfAccountsLoop ω currencies date rest cell.2.1 cell.2.2
    (cell.1 ++ r.1, r.2)

/-- Outer loop over days (line 75). -/
def cfDaysLoop (ω : Oracle) (currencies : List String) (base : DateTime)
    (n : Nat) : List Nat → Nat → Nat → List CashFlowRow × Nat × Nat
  | [], txn, k => ([], txn, k)
  | d :: rest, txn, k =>
    let day := cfAccountsLoop ω currencies (base.addDays d) (List.range n) txn k
    let r := cfDaysLoop ω currencies base n rest day.2.1 day.2.2
    (day.1 ++ r.1, r.2)

/-- Date order used by `df.sort_values('date')`. -/
def cfRowLe (a b : CashFlowRow) : Bool := dtLeb a.date b.date

/-- Insertion step of the sort modelling `df.sort_values('date')`. -/
def insertByLe {α : Type} (le : α → α → Bool) (a : α) : List α → List α
  | [] => [a]
  | b :: l => if le a b then a :: b :: l else b :: insertByLe le a l

/-- Insertion sort modelling `df.sort_values('date')` (pandas' default
quicksort fixes no order among equal dates, and no claim depends on it). -/
def sortByLe {α : Type} (le : α → α → Bool) (l : List α) : List α :=
  l.foldr (insertByLe le) []

/-- Start date (lines 63-64): `datetime.now() - timedelta(days=days)` when
no `base_date` is supplied. -/
def cfBase (days : Int) (base_date : Option DateTime) (now : DateTime) : DateTime :=
  match base_date with
  | none => now.subDays days
  | some b => b

/-- `generate_cash_flows` (lines 29-186).  Sorting an empty frame's missing
`date` column raises `KeyError`, modelled as `Except.error`. -/
def generate_cash_flows (days : Int) (n_accounts : Nat)
    (base_date : Option DateTime) (seed : Nat) (ss : Nat → Oracle)
    (now : DateTime) (g : RNGState) : Except String (List CashFlowRow) :=
  let st := set_seed ss seed g
  let ω := st.1
  let base := cfBase days base_date now
  let cur := cfAccountCurrencies ω n_accounts st.2
  let res := cfDaysLoop ω cur.1 base n_accounts (List.range days.toNat) 1000 cur.2
  if res.1.isEmpty then Except.error "KeyError: date"
  else Except.ok (sortByLe cfRowLe res.1)

/-! ## `generate_daily_cash_position` (generators.py lines 189-239) -/

/-- Row schema of `generate_daily_cash_position`. -/
structure CashPosRow where
  date : DateTime
  account_id : String
  currency : String
  opening_balance : ℚ
  inflows : ℚ
  outflows : ℚ
  closing_balance : ℚ
deriving Repr, DecidableEq, Inhabited

/-- Initial balances (lines 205-206): one `uniform(1e6, 1e7)` draw per
account, ascending. -/
def dcpInitBalances (ω : Oracle) (n k : Nat) : List ℚ × Nat :=
  match n with
  | 0 => ([], k)
  | m + 1 =>
    let b := npUniform ω 1000000 10000000 k
    let rest := dcpInitBalances ω m b.2
    (b.1 :: rest.1, rest.2)

/-- Account currencies (lines 207-208): one unweighted choice per account. -/
def dcpCurrencies (ω : Oracle) (n k : Nat) : List String × Nat :=
  match n with
  | 0 => ([], k)
  | m + 1 =>
    let c := npChoice ω ["USD", "EUR", "TRY"] "USD" k
    let rest := dcpCurrencies ω m c.2
    (c.1 :: rest.1, rest.2)

/-- One (day, account) body (lines 213-237): gate draw, conditional inflow
draw, outflow draw, month-end scaling, clamped closing, in-place balance
update. -/
def dcpAccStep (ω : Oracle) (date : DateTime) (currencies : List String)
    (j : Nat) (bals : List ℚ) (k : Nat) : CashPosRow × List ℚ × Nat :=
  let opening := bals.getD j 0
  let gate := npRandom ω k
  let infl := if gate.1 > 3/10 then npLognormal ω 11 1 gate.2 else (0, gate.2)
  let outfl0 := npLognormal ω (21/2) (6/5) infl.2
  let outfl := if date.dayOfMonth ≥ 25 then outfl0.1 * (3/2) else outfl0.1
  let closing := max 0 (opening + (infl.1 - outfl))
  ({ date, account_id := "ACC_" ++ padNum 3 j,
     currency := currencies.getD j "USD",
     opening_balance := roundTo 2 opening,
     inflows := roundTo 2 infl.1,
     outflows := roundTo 2 outfl,
     closing_balance := roundTo 2 closing },
   bals.set j closing, outfl0.2)

/-- Inner loop over accounts (line 213). -/
def dcpAccountsLoop (ω : Oracle) (date : DateTime) (currencies : List String) :
    List Nat → List ℚ → Nat → List CashPosRow × List ℚ × Nat
  | [], bals, k => ([], bals, k)
  | j :: rest, bals, k =>
    let s := dcpAccStep ω date currencies j bals k
    let r := dcpAccountsLoop ω date currencies rest s.2.1 s.2.2
    (s.1 :: r.1, r.2)

/-- Outer loop over days (line 210). -/
def dcpDaysLoop (ω : Oracle) (currencies : List String) (base : DateTime)
    (n : Nat) : List Nat → List ℚ → Nat → List CashPosRow × List ℚ × Nat
  | [], bals, k => ([], bals, k)
  | d :: rest, bals, k =>
    let day := dcpAccountsLoop ω (base.addDays d) currencies (List.range n) bals k
    let r := dcpDaysLoop ω currencies base n rest day.2.1 day.2.2
    (day.1 ++ r.1, r.2)

/-- `generate_daily_cash_position` (lines 189-239). -/
def generate_daily_cash_position (days : Int) (n_accounts : Nat) (seed : Nat)
    (ss : Nat → Oracle) (now : DateTime) (g : RNGState) : List CashPosRow :=
  let st := set_seed ss seed g
  let ω := st.1
  let base := now.subDays days
  let bals := dcpInitBalances ω n_accounts st.2
  let cur := dcpCurrencies ω n_accounts bals.2
  (dcpDaysLoop ω cur.1 base n_accounts (List.range days.toNat) bals.1 cur.2).1

/-! ## `generate_fx_rates` (generators.py lines 246-356) -/

/-- Row schema of `generate_fx_rates`. -/
structure FxRow where
  timestamp : DateTime
  currency_pair : String
  bid : ℚ
  ask : ℚ
  mid : ℚ
  daily_change_pct : ℚ
deriving Repr, DecidableEq

/-- `base_rates.get(pair, 1.0)` (lines 283-289, 313). -/
def fxBaseRate (pair : String) : ℚ :=
  if pair = "USD/TRY" then 34 else if pair = "EUR/TRY" then 37
  else if pair = "EUR/USD" then 27/25 else if pair = "GBP/USD" then 127/100
  else if pair = "USD/JPY" then 150 else 1

/-- `volatilities.get(pair, 0.01)` (lines 291-297, 314). -/
def fxVolatility (pair : String) : ℚ :=
  if pair = "USD/TRY" then 3/200 else if pair = "EUR/TRY" then 2/125
  else if pair = "EUR/USD" then 1/200 else if pair = "GBP/USD" then 3/500
  else if pair = "USD/JPY" then 7/1000 else 1/100

/-- `spreads.get(pair, 0.001)` (lines 299-305, 315). -/
def fxSpread (pair : String) : ℚ :=
  if pair = "USD/TRY" then 1/500 else if pair = "EUR/TRY" then 1/400
  else if pair = "EUR/USD" then 1/10000 else if pair = "GBP/USD" then 3/20000
  else if pair = "USD/JPY" then 1/5000 else 1/1000

/-- Volatility-clustering multiplier (lines 326-329): `1` at step 0,
otherwise `1 + 0.5 * |z|` for a standard-normal draw `z` consumed at cursor
`k` (the first draw of the current step). -/
def fxVolMult (ω : Oracle) (i k : Nat) : ℚ :=
  if 0 < i then 1 + (1/2) * |ω k| else 1

/-- Cursor after the multiplier draw: one value is consumed only when
`0 < i`. -/
def fxKAfterMult (i k : Nat) : Nat := if 0 < i then k + 1 else k

/-- Random-walk update before mean reversion (lines 331-333):
`prev * (1 + normal(0.0001, vol * vol_multiplier))`. -/
def fxPreRate (ω : Oracle) (vol : ℚ) (i : Nat) (prev : ℚ) (k : Nat) : ℚ :=
  prev * (1 + (1/10000 + vol * fxVolMult ω i k * ω (fxKAfterMult i k)))

/-- Mean reversion for extreme moves (lines 335-337). -/
def fxRevert (base r : ℚ) : ℚ :=
  if |r / base - 1| > 1/10 then r * (99/100) + base * (1/100) else r

/-- Per-pair state trace: `(fxTrace … i).1` is the running rate after `i`
steps (`base` before step 0) and `(fxTrace … i).2` the cursor at the start
of step `i`. -/
def fxTrace (ω : Oracle) (vol base : ℚ) (k0 : Nat) : Nat → ℚ × Nat
  | 0 => (base, k0)
  | i + 1 =>
    let s := fxTrace ω vol base k0 i
    (fxRevert base (fxPreRate ω vol i s.1 s.2), fxKAfterMult i s.2 + 1)

/-- Rows of one currency pair (lines 312-354); row `i` reports the rate
after step `i`, with `prev_rate` the rate after step `i-1` (`base` for
`i = 0`). -/
def fxPairRows (ω : Oracle) (pair : String) (baseDate : DateTime)
    (hourly : Bool) (periods : Nat) (k0 : Nat) : List FxRow :=
  let base := fxBaseRate pair
  let vol := fxVolatility pair
  let spread := fxSpread pair
  (List.range periods).map (fun i =>
    let prev := (fxTrace ω vol base k0 i).1
    let rate := (fxTrace ω vol base k0 (i + 1)).1
    { timestamp := if hourly then baseDate.addHours i else baseDate.addDays i,
      currency_pair := pair,
      bid := roundTo 6 (rate * (1 - spread/2)),
      ask := roundTo 6 (rate * (1 + spread/2)),
      mid := roundTo 6 rate,
      daily_change_pct :=
        roundTo 4 (if prev ≠ 0 then (rate - prev) / prev * 100 else 0) })

/-- Loop over currency pairs (line 312); each pair consumes
`2*periods - 1` draws (for `periods ≥ 1`), tracked by the trace cursor. -/
def fxPairsLoop (ω : Oracle) (baseDate : DateTime) (hourly : Bool)
    (periods : Nat) : List String → Nat → List FxRow
  | [], _ => []
  | p :: rest, k =>
    fxPairRows ω p baseDate hourly periods k ++
      fxPairsLoop ω baseDate hourly periods rest
        ((fxTrace ω (fxVolatility p) (fxBaseRate p) k periods).2)

/-- `generate_fx_rates` (lines 246-356). -/
def generate_fx_rates (days : Int) (currency_pairs : Option (List String))
    (freq : String) (seed : Nat) (ss : Nat → Oracle) (now : DateTime)
    (g : RNGState) : List FxRow :=
  let st := set_seed ss seed g
  let ω := st.1
  let pairs := currency_pairs.getD ["USD/TRY", "EUR/TRY", "EUR/USD", "GBP/USD"]
  let base := now.subDays days
  let periods : Nat := if freq = "D" then days.toNat else (days * 24).toNat
  fxPairsLoop ω base (!(freq == "D")) periods pairs st.2

/-! ## `generate_payments` (generators.py lines 409-522) -/

/-- Beneficiary record (lines 446-450, 470-475). -/
structure Beneficiary where
  name : String
  country : String
  account : String
  avg_amount : ℚ
deriving Repr, DecidableEq

/-- Row schema of `generate_payments`. -/
structure PaymentRow where
  payment_id : String
  timestamp : DateTime
  amount : ℚ
  currency : String
  beneficiary_name : String
  beneficiary_account : String
  beneficiary_country : String
  payment_type : String
  initiated_by : String
  is_anomaly : Bool
  anomaly_reasons : Option String
  anomaly_score : ℚ
deriving Repr, DecidableEq, Inhabited

/-- `high_risk_countries` (line 452). -/
def pmHighRisk : List String := ["RU", "IR", "KP", "SY", "VE"]

/-- `string.ascii_uppercase` as a pool of characters. -/
def asciiUppercase : List Char := (List.range 26).map (fun i => Char.ofNat (65 + i))

/-- Normal beneficiary pool (lines 446-450): for each of 200 suppliers, a
country choice then an average-amount draw. -/
def pmBenefPool (ω : Oracle) : Nat → Nat → Nat → List Beneficiary × Nat
  | 0, _, k => ([], k)
  | m + 1, i, k =>
    let c := npChoice ω ["TR", "US", "DE", "GB", "NL"] "TR" k
    let a := npLognormal ω 10 1 c.2
    let rest := pmBenefPool ω m (i + 1) a.2
    ({ name := "SUPPLIER_" ++ padNum 3 i, country := c.1,
       account := "IBAN" ++ padNum 10 i, avg_amount := a.1 } :: rest.1, rest.2)

/-- Beneficiary selection (lines 467-478).  `if is_anomaly and
np.random.random() < 0.3` short-circuits: the gate draw occurs only when the
flag is currently true.  Returns the beneficiary, the reasons accumulated so
far, and the cursor. -/
def pmSelectBenef (ω : Oracle) (pool : List Beneficiary) (isAnom : Bool)
    (k : Nat) : Beneficiary × List String × Nat :=
  if isAnom then
    let t := npRandom ω k
    if t.1 < 3/10 then
      let chars := pyChoicesStr ω asciiUppercase 5 t.2
      let c := npChoice ω (pmHighRisk ++ ["TR", "US"]) "TR" chars.2
      let acc := npRandint ω 1000000 9999999 c.2
      ({ name := "NEW_VENDOR_" ++ chars.1, country := c.1,
         account := "IBAN_NEW_" ++ toString acc.1, avg_amount := 50000 },
       ["NEW_BENEFICIARY"], acc.2)
    else
      let b := npChoice ω pool ⟨"", "", "", 0⟩ t.2
      (b.1, [], b.2)
  else
    let b := npChoice ω pool ⟨"", "", "", 0⟩ k
    (b.1, [], b.2)

/-- Amount generation (lines 481-485), same short-circuit convention. -/
def pmAmountSel (ω : Oracle) (avg : ℚ) (isAnom : Bool) (reasons : List String)
    (k : Nat) : ℚ × List String × Nat :=
  if isAnom then
    let t := npRandom ω k
    if t.1 < 2/5 then
      let u := npUniform ω 5 20 t.2
      (avg * u.1, reasons ++ ["UNUSUAL_AMOUNT"], u.2)
    else
      let l := npLognormal ω 0 (1/2) t.2
      (avg * l.1, reasons, l.2)
  else
    let l := npLognormal ω 0 (1/2) k
    (avg * l.1, reasons, l.2)

/-- Round-amount anomaly (lines 488-491). -/
def pmRoundSel (ω : Oracle) (amount : ℚ) (isAnom : Bool)
    (reasons : List String) (k : Nat) : ℚ × List String × Nat :=
  if isAnom then
    let t := npRandom ω k
    if t.1 < 3/10 then
      (roundTo (-4) amount,
       if reasons.contains "UNUSUAL_AMOUNT" then reasons
       else reasons ++ ["ROUND_AMOUNT"], t.2)
    else (amount, reasons, t.2)
  else (amount, reasons, k)

/-- Timestamp hour (lines 499-503), applied after the high-risk check. -/
def pmTimeSel (ω : Oracle) (isAnom : Bool) (reasons : List String) (k : Nat) :
    Nat × List String × Nat :=
  if isAnom then
    let t := npRandom ω k
    if t.1 < 1/5 then
      let h := npChoice ω ([2, 3, 4, 22, 23] : List Nat) 2 t.2
      (h.1, reasons ++ ["UNUSUAL_TIME"], h.2)
    else
      let h := npRandint ω 9 18 t.2
      (h.1.toNat, reasons, h.2)
  else
    let h := npRandint ω 9 18 k
    (h.1.toNat, reasons, h.2)

/-- One payment (lines 463-520): anomaly-flag draw, beneficiary, amount,
round-amount, high-risk-country override (lines 494-496), hour, then the
remaining per-row draws in dict-field order. -/
def pmPayment (ω : Oracle) (pool : List Beneficiary) (anomaly_rate : ℚ)
    (date : DateTime) (dayOff i k : Nat) : PaymentRow × Nat :=
  let ad := npRandom ω k
  let isAnom0 : Bool := decide (ad.1 < anomaly_rate)
  let bsel := pmSelectBenef ω pool isAnom0 ad.2
  let asel := pmAmountSel ω bsel.1.avg_amount isAnom0 bsel.2.1 bsel.2.2
  let rsel := pmRoundSel ω asel.1 isAnom0 asel.2.1 asel.2.2
  -- high-risk country (lines 494-496)
  let hr : Bool := decide (bsel.1.country ∈ pmHighRisk)
  let reasons1 := if hr then rsel.2.1 ++ ["HIGH_RISK_COUNTRY"] else rsel.2.1
  let isAnom1 := if hr then true else isAnom0
  let tsel := pmTimeSel ω isAnom1 reasons1 rsel.2.2
  -- remaining per-row draws, in dict-field order (lines 505-520)
  let minu := npRandint ω 0 60 tsel.2.2
  let cur := npChoiceP ω ["USD", "EUR", "TRY"] [1/2, 3/10, 1/5] "USD" minu.2
  let pt := npChoice ω ["SUPPLIER", "SALARY", "TAX", "TRANSFER"] "SUPPLIER" cur.2
  let ini := npRandint ω 1 20 pt.2
  ({ payment_id := "PAY_" ++ padNum 3 dayOff ++ "_" ++ padNum 4 i,
     timestamp := date.replaceHM tsel.1 minu.1.toNat,
     amount := roundTo 2 rsel.1,
     currency := cur.1,
     beneficiary_name := bsel.1.name,
     beneficiary_account := bsel.1.account,
     beneficiary_country := bsel.1.country,
     payment_type := pt.1,
     initiated_by := "USER_" ++ padNum 2 ini.1.toNat,
     is_anomaly := isAnom1,
     anomaly_reasons :=
       if tsel.2.1.isEmpty then none
       else some (String.intercalate "|" tsel.2.1),
     anomaly_score := if tsel.2.1.isEmpty then 0 else (tsel.2.1.length : ℚ) / 5 },
   ini.2)

/-- Inner loop over the day's payments (line 463). -/
def pmPaymentsLoop (ω : Oracle) (pool : List Beneficiary) (anomaly_rate : ℚ)
    (date : DateTime) (dayOff : Nat) : Nat → Nat → Nat → List PaymentRow × Nat
  | 0, _, k => ([], k)
  | m + 1, i, k =>
    let p := pmPayment ω pool anomaly_rate date dayOff i k
    let rest := pmPaymentsLoop ω pool anomaly_rate date dayOff m (i + 1) p.2
    (p.1 :: rest.1, rest.2)

/-- Outer loop over days (lines 454-461): weekends are skipped before any
draw. -/
def pmDaysLoop (ω : Oracle) (pool : List Beneficiary) (anomaly_rate : ℚ)
    (base : DateTime) (daily_count : Nat) : List Nat → Nat → List PaymentRow × Nat
  | [], k => ([], k)
  | d :: rest, k =>
    let date := base.addDays d
    if date.weekday ≥ 5 then pmDaysLoop ω pool anomaly_rate base daily_count rest k
    else
      let np_ := npPoisson ω daily_count k
      let rows := pmPaymentsLoop ω pool anomaly_rate date d np_.1 0 np_.2
      let r := pmDaysLoop ω pool anomaly_rate base daily_count rest rows.2
      (rows.1 ++ r.1, r.2)

/-- `generate_payments` (lines 409-522). -/
def generate_payments (days : Int) (daily_count : Nat) (anomaly_rate : ℚ)
    (seed : Nat) (ss : Nat → Oracle) (now : DateTime) (g : RNGState) :
    List PaymentRow :=
  let st := set_seed ss seed g
  let ω := st.1
  let base := now.subDays days
  let pool := pmBenefPool ω 200 0 st.2
  (pmDaysLoop ω pool.1 anomaly_rate base daily_count (List.range days.toNat) pool.2).1

/-! ## `generate_commodity_prices` (generators.py lines 529-627) -/

/-- Long-format row schema of `generate_commodity_prices` (`open` is a Lean
keyword, rendered `open_`). -/
structure CommodityRow where
  date : DateTime
  commodity : String
  close : ℚ
  open_ : ℚ
  high : ℚ
  low : ℚ
  volume : Nat
deriving Repr, DecidableEq

/-- `base_prices` dict (lines 548-554); `none` for a missing key
(`base_prices[c]` raises `KeyError`). -/
def cmdBasePrice (c : String) : Option ℚ :=
  if c = "BRENT" then some 80 else if c = "WTI" then some 75
  else if c = "GASOLINE" then some (5/2) else if c = "DIESEL" then some (14/5)
  else if c = "JET_FUEL" then some (13/5) else none

/-- `volatilities` dict (lines 556-562); same key set as `base_prices`. -/
def cmdVolatility (c : String) : Option ℚ :=
  if c = "BRENT" then some (1/50) else if c = "WTI" then some (11/500)
  else if c = "GASOLINE" then some (1/40) else if c = "DIESEL" then some (23/1000)
  else if c = "JET_FUEL" then some (3/125) else none

/-- Seasonal offset of a commodity (lines 592-597). -/
def cmdSeasonal (c : String) (gasS dieS : ℚ) : ℚ :=
  if c = "GASOLINE" then gasS
  else if c = "DIESEL" ∨ c = "JET_FUEL" then dieS else 0

/-- Commodity mean reversion (lines 603-606). -/
def cmdRevert (base p : ℚ) : ℚ :=
  if |p / base - 1| > 3/10 then p * (49/50) + base * (1/50) else p

/-- Inner loop over commodities for one day (lines 588-616): idiosyncratic
draw, seasonal offset, price update, mean reversion, then the OHLC/volume
draws of the row. -/
def cmdDayLoop (ω : Oracle) (date : DateTime) (gasS dieS common : ℚ) :
    List String → (String → ℚ) → Nat → List CommodityRow × (String → ℚ) × Nat
  | [], prices, k => ([], prices, k)
  | c :: rest, prices, k =>
    let vol := (cmdVolatility c).getD 0
    let idio := npNormal ω 0 vol k
    let ret := common * (7/10) + idio.1 * (3/10) + cmdSeasonal c gasS dieS
    let p1 := prices c * (1 + ret)
    let p2 := cmdRevert ((cmdBasePrice c).getD 0) p1
    let op := npUniform ω (-1/100) (1/100) idio.2
    let hi := npNormal ω 0 (3/200) op.2
    let lo := npNormal ω 0 (3/200) hi.2
    let vlm := npLognormal ω 15 1 lo.2
    let row : CommodityRow :=
      { date, commodity := c,
        close := roundTo 4 p2,
        open_ := roundTo 4 (p2 * (1 + op.1)),
        high := roundTo 4 (p2 * (1 + |hi.1|)),
        low := roundTo 4 (p2 * (1 - |lo.1|)),
        volume := vlm.1.floor.toNat }
    let r := cmdDayLoop ω date gasS dieS common rest
      (fun x => if x = c then p2 else prices x) vlm.2
    (row :: r.1, r.2)

/-- Outer loop over days (lines 570-616): one common-shock draw per day,
seasonal offsets from the calendar month. -/
def cmdDaysLoop (ω : Oracle) (base : DateTime) (commodities : List String) :
    List Nat → (String → ℚ) → Nat → List CommodityRow × (String → ℚ) × Nat
  | [], prices, k => ([], prices, k)
  | d :: rest, prices, k =>
    let date := base.addDays d
    let month := date.month
    let common := npNormal ω 0 (1/100) k
    let gasS : ℚ := if month = 6 ∨ month = 7 ∨ month = 8 then 1/1000 else -1/2000
    let dieS : ℚ :=
      if month = 11 ∨ month = 12 ∨ month = 1 ∨ month = 2 then 1/1250 else -3/10000
    let day := cmdDayLoop ω date gasS dieS common.1 commodities prices common.2
    let r := cmdDaysLoop ω base commodities rest day.2.1 day.2.2
    (day.1 ++ r.1, r.2)

/-- The pivoted table (lines 618-625): wide `close` lookup per (commodity,
date) plus the derived crack-spread columns, present exactly when their
input columns are. -/
structure CommodityPivot where
  dates : List DateTime
  close : String → DateTime → Option ℚ
  gasoline_crack : Option (DateTime → Option ℚ)
  diesel_crack : Option (DateTime → Option ℚ)

/-- `df.pivot(index='date', columns='commodity', values='close')` plus crack
columns: `KeyError` on an empty frame, `ValueError` on duplicate
(date, commodity) index entries. -/
def cmdPivot (rows : List CommodityRow) : Except String CommodityPivot :=
  if rows.isEmpty then Except.error "KeyError: date"
  else if ¬ (rows.map (fun r => (r.date, r.commodity))).Nodup then
    Except.error "ValueError: Index contains duplicate entries"
  else
    let close := fun (c : String) (d : DateTime) =>
      (rows.find? (fun r => r.commodity == c && r.date == d)).map
        (fun r => r.close)
    let hasB := rows.any (fun r => r.commodity == "BRENT")
    let hasG := rows.any (fun r => r.commodity == "GASOLINE")
    let hasD := rows.any (fun r => r.commodity == "DIESEL")
    Except.ok
      { dates := (rows.map (fun r => r.date)).dedup,
        close,
        gasoline_crack :=
          if hasB && hasG then
            some (fun d =>
              match close "GASOLINE" d, close "BRENT" d with
              | some gq, some b => some (gq * 42 - b)
              | _, _ => none)
          else none,
        diesel_crack :=
          if hasB && hasD then
            some (fun d =>
              match close "DIESEL" d, close "BRENT" d with
              | some dq, some b => some (dq * 42 - b)
              | _, _ => none)
          else none }

/-- `generate_commodity_prices` (lines 529-627), returning the long table
and the pivot. -/
def generate_commodity_prices (days : Int) (commodities : Option (List String))
    (seed : Nat) (ss : Nat → Oracle) (now : DateTime) (g : RNGState) :
    Except String (List CommodityRow × CommodityPivot) :=
  let st := set_seed ss seed g
  let ω := st.1
  let cs := commodities.getD ["BRENT", "WTI", "GASOLINE", "DIESEL", "JET_FUEL"]
  if cs.any (fun c => (cmdBasePrice c).isNone) then
    Except.error "KeyError: commodity"
  else
    let base := now.subDays days
    let res := cmdDaysLoop ω base cs (List.range days.toNat)
      (fun c => (cmdBasePrice c).getD 0) st.2
    (cmdPivot res.1).map (fun pv => (res.1, pv))

/-! ## Static reference generators (generators.py lines 634-713) -/

/-- Row schema of `generate_fx_exposures`. -/
structure FxExposureRow where
  exposure_id : String
  entity : String
  currency : String
  exposure_type : String
  amount_local : ℚ
  maturity_date : DateTime
  maturity_bucket : String
  is_hedged : Bool
  hedge_ratio : ℚ
deriving Repr, DecidableEq

/-- `exposure_types` pool (line 372). -/
def feTypes : List String :=
  ["RECEIVABLE", "PAYABLE", "FORECAST_REVENUE", "FORECAST_COST"]

/-- One exposure row (lines 375-400). -/
def feExposure (ω : Oracle) (base : DateTime) (i k : Nat) : FxExposureRow × Nat :=
  let md := npChoice ω ([30, 60, 90, 180, 365] : List Nat) 30 k
  let cur := npChoiceP ω ["USD", "EUR", "GBP", "TRY"] [2/5, 3/10, 1/10, 1/5] "USD" md.2
  let et :=
    if cur.1 = "USD" then npChoiceP ω feTypes [1/5, 3/5, 1/10, 1/10] "RECEIVABLE" cur.2
    else npChoiceP ω feTypes [1/2, 1/5, 1/5, 1/10] "RECEIVABLE" cur.2
  let amt :=
    if et.1 = "PAYABLE" ∨ et.1 = "FORECAST_COST" then
      let l := npLognormal ω 15 1 et.2; (-l.1, l.2)
    else
      let l := npLognormal ω 14 (6/5) et.2; (l.1, l.2)
  let ent := npChoice ω ((List.range 5).map (fun j => "ENTITY_" ++ padNum 2 (j + 1)))
    "ENTITY_01" amt.2
  let hedged := npRandom ω ent.2
  let hrGate := npRandom ω hedged.2
  let hrv := if hrGate.1 > 3/5 then npUniform ω (1/2) 1 hrGate.2 else (0, hrGate.2)
  ({ exposure_id := "EXP_" ++ padNum 5 (i + 1),
     entity := ent.1,
     currency := cur.1,
     exposure_type := et.1,
     amount_local := roundTo 2 amt.1,
     maturity_date := base.addDays md.1,
     maturity_bucket := toString md.1 ++ "D",
     is_hedged := hedged.1 > 3/5,
     hedge_ratio := hrv.1 }, hrv.2)

/-- Loop of `generate_fx_exposures` (line 375). -/
def feLoop (ω : Oracle) (base : DateTime) : Nat → Nat → Nat → List FxExposureRow × Nat
  | 0, _, k => ([], k)
  | m + 1, i, k =>
    let e := feExposure ω base i k
    let rest := feLoop ω base m (i + 1) e.2
    (e.1 :: rest.1, rest.2)

/-- `generate_fx_exposures` (lines 359-402); `base_date = datetime.now()`. -/
def generate_fx_exposures (n_exposures : Nat) (seed : Nat) (ss : Nat → Oracle)
    (now : DateTime) (g : RNGState) : List FxExposureRow :=
  let st := set_seed ss seed g
  (feLoop st.1 now n_exposures 0 st.2).1

/-- Row schema of `generate_counterparties`. -/
structure CounterpartyRow where
  counterparty_id : String
  name : String
  type : String
  country : String
  credit_rating : String
  credit_limit : ℚ
  payment_terms : Nat
  is_active : Bool
deriving Repr, DecidableEq

/-- One counterparty row (lines 642-654). -/
def cpRow (ω : Oracle) (i k : Nat) : CounterpartyRow × Nat :=
  let t := npChoiceP ω ["CUSTOMER", "SUPPLIER", "BANK", "INTERCOMPANY"]
    [3/10, 1/2, 1/10, 1/10] "CUSTOMER" k
  let c := npChoice ω ["TR", "US", "DE", "GB", "NL", "FR", "IT", "ES", "AE", "SG"]
    "TR" t.2
  let r := npChoiceP ω ["AAA", "AA", "A", "BBB", "BB", "B"]
    [1/20, 1/10, 1/4, 7/20, 3/20, 1/10] "AAA" c.2
  let lim := npLognormal ω 14 1 r.2
  let pt := npChoice ω ([30, 45, 60, 90] : List Nat) 30 lim.2
  let act := npRandom ω pt.2
  ({ counterparty_id := "CP_" ++ padNum 5 (i + 1),
     name := t.1.take 4 ++ "_" ++ padNum 3 (i + 1) ++ "_LLC",
     type := t.1, country := c.1, credit_rating := r.1,
     credit_limit := roundTo (-3) lim.1,
     payment_terms := pt.1,
     is_active := act.1 > 1/10 }, act.2)

/-- Loop of `generate_counterparties` (line 642). -/
def cpLoop (ω : Oracle) : Nat → Nat → Nat → List CounterpartyRow × Nat
  | 0, _, k => ([], k)
  | m + 1, i, k =>
    let e := cpRow ω i k
    let rest := cpLoop ω m (i + 1) e.2
    (e.1 :: rest.1, rest.2)

/-- `generate_counterparties` (lines 634-656): no clock access at all. -/
def generate_counterparties (n : Nat) (seed : Nat) (ss : Nat → Oracle)
    (g : RNGState) : List CounterpartyRow :=
  let st := set_seed ss seed g
  (cpLoop st.1 n 0 st.2).1

/-- Row schema of `generate_bank_accounts`. -/
structure BankAccountRow where
  account_id : String
  bank : String
  currency : String
  account_number : String
  iban : String
  account_type : String
  entity : String
  is_active : Bool
deriving Repr, DecidableEq

/-- `string.digits` as a pool of characters. -/
def asciiDigits : List Char := (List.range 10).map (fun i => Char.ofNat (48 + i))

/-- One bank-account row (lines 667-677). -/
def baRow (ω : Oracle) (i k : Nat) : BankAccountRow × Nat :=
  let b := npChoice ω ["HSBC", "Citi", "JPMorgan", "Deutsche", "Barclays",
    "Garanti", "Akbank"] "HSBC" k
  let c := npChoice ω ["USD", "EUR", "TRY", "GBP"] "USD" b.2
  let an := pyChoicesStr ω asciiDigits 16 c.2
  let ib := pyChoicesStr ω asciiDigits 24 an.2
  let at_ := npChoice ω ["OPERATING", "PAYROLL", "TAX", "INVESTMENT"]
    "OPERATING" ib.2
  let ent := npRandint ω 1 5 at_.2
  ({ account_id := "ACC_" ++ padNum 3 i, bank := b.1, currency := c.1,
     account_number := an.1, iban := "TR" ++ ib.1, account_type := at_.1,
     entity := "ENTITY_" ++ padNum 2 ent.1.toNat, is_active := true }, ent.2)

/-- Loop of `generate_bank_accounts` (line 667). -/
def baLoop (ω : Oracle) : Nat → Nat → Nat → List BankAccountRow × Nat
  | 0, _, k => ([], k)
  | m + 1, i, k =>
    let e := baRow ω i k
    let rest := baLoop ω m (i + 1) e.2
    (e.1 :: rest.1, rest.2)

/-- `generate_bank_accounts` (lines 659-679): no clock access at all. -/
def generate_bank_accounts (n : Nat) (seed : Nat) (ss : Nat → Oracle)
    (g : RNGState) : List BankAccountRow :=
  let st := set_seed ss seed g
  (baLoop st.1 n 0 st.2).1

/-- Row schema of `generate_trade_documents`. -/
structure TradeDocRow where
  document_id : String
  document_type : String
  reference_number : String
  counterparty : String
  amount : ℚ
  currency : String
  issue_date : DateTime
  expiry_date : DateTime
  status : String
  has_discrepancy : Bool
  vessel_name : Option String
deriving Repr, DecidableEq

/-- One trade-document row (lines 696-712). -/
def tdRow (ω : Oracle) (base : DateTime) (i k : Nat) : TradeDocRow × Nat :=
  let dt := npChoiceP ω ["LC", "BILL_OF_LADING", "COMMERCIAL_INVOICE",
    "CERTIFICATE_OF_ORIGIN"] [3/10, 1/4, 3/10, 3/20] "LC" k
  let off := npRandint ω 0 180 dt.2
  let ref := npRandint ω 100000 999999 off.2
  let cp := npRandint ω 1 50 ref.2
  let amt := npLognormal ω 14 1 cp.2
  let cur := npChoice ω ["USD", "EUR"] "USD" amt.2
  let exd := npRandint ω 30 180 cur.2
  let stat := npChoiceP ω ["DRAFT", "SUBMITTED", "APPROVED", "DISCREPANT", "PAID"]
    [1/10, 1/5, 2/5, 3/20, 3/20] "DRAFT" exd.2
  let disc := npRandom ω stat.2
  let vessel :=
    if dt.1 = "BILL_OF_LADING" then
      let v := pyChoicesStr ω asciiUppercase 8 disc.2
      (some ("MV " ++ v.1), v.2)
    else (none, disc.2)
  ({ document_id := "DOC_" ++ padNum 5 (i + 1), document_type := dt.1,
     reference_number := "REF_" ++ toString ref.1,
     counterparty := "SUPP_" ++ padNum 3 cp.1.toNat,
     amount := roundTo 2 amt.1, currency := cur.1,
     issue_date := base.addDays off.1,
     expiry_date := base.addDays (off.1 + exd.1),
     status := stat.1, has_discrepancy := disc.1 < 3/20,
     vessel_name := vessel.1 }, vessel.2)

/-- Loop of `generate_trade_documents` (line 696). -/
def tdLoop (ω : Oracle) (base : DateTime) : Nat → Nat → Nat → List TradeDocRow × Nat
  | 0, _, k => ([], k)
  | m + 1, i, k =>
    let e := tdRow ω base i k
    let rest := tdLoop ω base m (i + 1) e.2
    (e.1 :: rest.1, rest.2)

/-- `generate_trade_documents` (lines 686-713);
`base_date = datetime.now() - timedelta(days=180)`. -/
def generate_trade_documents (n : Nat) (seed : Nat) (ss : Nat → Oracle)
    (now : DateTime) (g : RNGState) : List TradeDocRow :=
  let st := set_seed ss seed g
  (tdLoop st.1 (now.subDays 180) n 0 st.2).1

/-! ## Concrete inputs used by witnesses and counterexamples -/

/-- A throwaway incoming global RNG state (discarded by `set_seed`). -/
def g0 : RNGState := (fun _ => 0, 0)

/-- Seed semantics where every draw realizes as `1/2`. -/
def ssHalf : Nat → Oracle := fun _ _ => 1/2

/-- Seed semantics where every draw realizes as `1/10`. -/
def ssTenth : Nat → Oracle := fun _ _ => 1/10

/-- Seed semantics for the payments run exhibiting a flagged payment with no
reason: the anomaly gate fires but every reason gate fails.  Draw 400 is the
Poisson payment count (the 200-entry beneficiary pool consumes draws
0-399). -/
def ssFlagNoReason : Nat → Oracle := fun _ k => if k = 400 then 1 else 1/2

/-- Seed semantics for a payments run that selects a new high-risk-country
beneficiary (draw 402 is the new-beneficiary gate, low enough to fire; the
country choice then lands on the first pool entry, `RU`). -/
def ssHighRisk : Nat → Oracle :=
  fun _ k => if k = 400 then 1 else if k = 402 then 0 else 1/2

/-- Head row of the concrete high-risk payments run, shared by witnesses. -/
def pmHighRiskRow : PaymentRow :=
  (generate_payments 1 50 (3/4) 42 ssHighRisk ⟨5, 0⟩ g0).headI

/-- Oracle for the C7 counterexample: the step-0 draw is `0`, every later
draw is `2`. -/
def omega7 : Oracle := fun k => if k = 0 then 0 else 2

/-- A single Oracle with all draws `1/2`, for concrete witnesses. -/
def halfOracle : Oracle := fun _ => 1/2

/-- The 7-day cash-flow run used by the C3 witness. -/
def cfRowsW : List CashFlowRow :=
  match generate_cash_flows 7 1 none 42 ssTenth ⟨11, 0⟩ g0 with
  | Except.ok rs => rs
  | Except.error _ => []

/-- The 1-day default commodity run shared by the C3 and C4 witnesses. -/
def cmdRowsW : List CommodityRow :=
  match generate_commodity_prices 1 none 42 ssHalf ⟨20000, 0⟩ g0 with
  | Except.ok (rs, _) => rs
  | Except.error _ => []

/-- Pivot of the 1-day default commodity run. -/
def cmdPvW : CommodityPivot :=
  match generate_commodity_prices 1 none 42 ssHalf ⟨20000, 0⟩ g0 with
  | Except.ok (_, pv) => pv
  | Except.error _ => ⟨[], fun _ _ => none, none, none⟩

/-- Refinement target for C9 (from the claim's words): the tax block with
the quarter-end multiplier removed. -/
def cfTaxNQ (ω : Oracle) (date : DateTime) (accId currency : String)
    (txn k : Nat) : List CashFlowRow × Nat × Nat :=
  if (date.month = 1 ∨ date.month = 4 ∨ date.month = 7 ∨ date.month = 10) ∧
      date.dayOfMonth = 15 then
    let a := npUniform ω 100000 500000 k
    ([{ date, account_id := accId,
        transaction_id := "TXN_" ++ padNum 8 txn,
        type := "OUTFLOW", amount := -(roundTo 2 a.1), currency,
        category := "TAX", counterparty := "TAX_AUTHORITY",
        description := "Quarterly tax payment",
        is_recurring := true }], txn + 1, a.2)
  else ([], txn, k)

/-- C9 variant of the per-cell body: no quarter-end multiplier. -/
def cfCellNQ (ω : Oracle) (date : DateTime) (aIdx : Nat) (currency : String)
    (txn k : Nat) : List CashFlowRow × Nat × Nat :=
  let accId := "ACC_" ++ padNum 3 aIdx
  let memult : ℚ := if date.dayOfMonth ≥ 25 then 2 else 1
  if date.weekday ≥ 5 then ([], txn, k)
  else
    let rcv := cfReceivable ω date accId currency memult txn k
    let intr := cfInterest ω date accId currency rcv.2.1 rcv.2.2
    let pois := npPoisson ω 3 intr.2.2
    let nSup := ((pois.1 : ℚ) * memult).floor.toNat
    let sup := cfSupplierLoop ω date accId currency nSup intr.2.1 pois.2
    let sal := cfSalary ω date accId currency sup.2.1 sup.2.2
    let tax := cfTaxNQ ω date accId currency sal.2.1 sal.2.2
    (rcv.1 ++ intr.1 ++ sup.1 ++ sal.1 ++ tax.1, tax.2)

/-- C9 variant of the account loop. -/
def cfAccountsLoopNQ (ω : Oracle) (currencies : List String) (date : DateTime) :
    List Nat → Nat → Nat → List CashFlowRow × Nat × Nat
  | [], txn, k => ([], txn, k)
  | a :: rest, txn, k =>
    let cell := cfCellNQ ω date a (currencies.getD a "USD") txn k
    let r := cfAccountsLoopNQ ω currencies date rest cell.2.1 cell.2.2
    (cell.1 ++ r.1, r.2)

/-- C9 variant of the day loop. -/
def cfDaysLoopNQ (ω : Oracle) (currencies : List String) (base : DateTime)
    (n : Nat) : List Nat → Nat → Nat → List CashFlowRow × Nat × Nat
  | [], txn, k => ([], txn, k)
  | d :: rest, txn, k =>
    let day := cfAccountsLoopNQ ω currencies (base.addDays d) (List.range n) txn k
    let r := cfDaysLoopNQ ω currencies base n rest day.2.1 day.2.2
    (day.1 ++ r.1, r.2)

/-- C9 variant of `generate_cash_flows`, quarter-end multiplier removed. -/
def generate_cash_flows_noquarter (days : Int) (n_accounts : Nat)
    (base_date : Option DateTime) (seed : Nat) (ss : Nat → Oracle)
    (now : DateTime) (g : RNGState) : Except String (List CashFlowRow) :=
  let st := set_seed ss seed g
  let ω := st.1
  let base := cfBase days base_date now
  let cur := cfAccountCurrencies ω n_accounts st.2
  let res := cfDaysLoopNQ ω cur.1 base n_accounts (List.range days.toNat) 1000 cur.2
  if res.1.isEmpty then Except.error "KeyError: date"
  else Except.ok (sortByLe cfRowLe res.1)

/-- Rows of the concrete 2-day, 1-account cash-position run. -/
def dcpRowsW : List CashPosRow :=
  generate_daily_cash_position 2 1 42 ssHalf ⟨20000, 0⟩ g0

/-! ## C1 -/

/-- C1, counterexample: with identical seed, parameters and incoming global
RNG state, two invocations of `generate_fx_rates` made at different
wall-clock times (`datetime.now()` readings one day apart) produce different
tables: every timestamp is derived from `datetime.now()`. -/
theorem claim1_counterexample :
    generate_fx_rates 1 (some ["USD/TRY"]) "D" 42 ssHalf ⟨0, 0⟩ g0 ≠
      generate_fx_rates 1 (some ["USD/TRY"]) "D" 42 ssHalf ⟨1, 0⟩ g0 := by
  decide

/-- C1 (amended): for a fixed seed, parameter set and a fixed
`datetime.now()` reading, every generator's output is independent of the
pre-call global RNG state — each generator reseeds via `set_seed` first —
hence two such calls produce identical tables.  (`generate_counterparties`
and `generate_bank_accounts` never consult the clock, so for them the
original claim holds outright.) -/
theorem claim1_amended (ss : Nat → Oracle) (seed : Nat) (now : DateTime)
    (g₁ g₂ : RNGState) (days : Int) (n_accounts : Nat)
    (base_date : Option DateTime) (pairs : Option (List String)) (freq : String)
    (daily_count : Nat) (anomaly_rate : ℚ) (commodities : Option (List String))
    (nexp ncp nba ntd : Nat) :
    generate_cash_flows days n_accounts base_date seed ss now g₁ =
      generate_cash_flows days n_accounts base_date seed ss now g₂ ∧
    generate_daily_cash_position days n_accounts seed ss now g₁ =
      generate_daily_cash_position days n_accounts seed ss now g₂ ∧
    generate_fx_rates days pairs freq seed ss now g₁ =
      generate_fx_rates days pairs freq seed ss now g₂ ∧
    generate_fx_exposures nexp seed ss now g₁ =
      generate_fx_exposures nexp seed ss now g₂ ∧
    generate_payments days daily_count anomaly_rate seed ss now g₁ =
      generate_payments days daily_count anomaly_rate seed ss now g₂ ∧
    generate_commodity_prices days commodities seed ss now g₁ =
      generate_commodity_prices days commodities seed ss now g₂ ∧
    generate_counterparties ncp seed ss g₁ = generate_counterparties ncp seed ss g₂ ∧
    generate_bank_accounts nba seed ss g₁ = generate_bank_accounts nba seed ss g₂ ∧
    generate_trade_documents ntd seed ss now g₁ =
      generate_trade_documents ntd seed ss now g₂ :=
  ⟨rfl, rfl, rfl, rfl, rfl, rfl, rfl, rfl, rfl⟩

/-! ## C6 -/

/-- `fxPairsLoop` over zero periods yields no rows for any pair list. -/
theorem fxPairsLoop_zero (ω : Oracle) (bd : DateTime) (h : Bool) :
    ∀ (ps : List String) (k : Nat), fxPairsLoop ω bd h 0 ps k = [] := by
  intro ps
  induction ps with
  | nil => intro k; rfl
  | cons p rest ih =>
    intro k
    simp [fxPairsLoop, fxPairRows, ih]

/-- C6, counterexample: a negative day count does not raise in
`generate_fx_rates`: `range` over a negative count is empty, the loops never
run, and the call returns an empty table normally. -/
theorem claim6_counterexample :
    generate_fx_rates (-1) none "D" 42 ssHalf ⟨0, 0⟩ g0 = [] := by
  decide

/-- C6 (amended): a negative day count empties every loop; only the
generators that post-process the table raise — `generate_cash_flows`
(column access on an empty frame) and `generate_commodity_prices` (pivot of
an empty frame) — while `generate_fx_rates`, `generate_payments` and
`generate_daily_cash_position` return an empty table normally, so raising is
not the universal failure mode the claim asserts. -/
theorem claim6_amended (days : Int) (hneg : days < 0) (n_accounts : Nat)
    (base_date : Option DateTime) (pairs : Option (List String)) (freq : String)
    (daily_count : Nat) (anomaly_rate : ℚ) (seed : Nat) (ss : Nat → Oracle)
    (now : DateTime) (g : RNGState) :
    generate_fx_rates days pairs freq seed ss now g = [] ∧
    generate_payments days daily_count anomaly_rate seed ss now g = [] ∧
    generate_daily_cash_position days n_accounts seed ss now g = [] ∧
    generate_cash_flows days n_accounts base_date seed ss now g =
      Except.error "KeyError: date" ∧
    generate_commodity_prices days none seed ss now g =
      Except.error "KeyError: date" := by
  have hd : days.toNat = 0 := Int.toNat_eq_zero.mpr (le_of_lt hneg)
  have hd24 : (days * 24).toNat = 0 := by
    apply Int.toNat_eq_zero.mpr; omega
  refine ⟨?_, ?_, ?_, ?_, ?_⟩
  · simp only [generate_fx_rates, hd, hd24]
    split <;> exact fxPairsLoop_zero _ _ _ _ _
  · simp [generate_payments, hd, pmDaysLoop]
  · simp [generate_daily_cash_position, hd, dcpDaysLoop]
  · simp [generate_cash_flows, hd, cfDaysLoop]
  · simp [generate_commodity_prices, hd, cmdDaysLoop, cmdPivot, cmdBasePrice,
      Except.map]

/-- C6 witness: the amended statement at `days = -1` with concrete
parameters. -/
theorem claim6_witness :
    generate_fx_rates (-1) none "D" 42 ssHalf ⟨0, 0⟩ g0 = [] ∧
    generate_payments (-1) 50 (1/50) 42 ssHalf ⟨0, 0⟩ g0 = [] ∧
    generate_daily_cash_position (-1) 5 42 ssHalf ⟨0, 0⟩ g0 = [] ∧
    generate_cash_flows (-1) 5 none 42 ssHalf ⟨0, 0⟩ g0 =
      Except.error "KeyError: date" ∧
    generate_commodity_prices (-1) none 42 ssHalf ⟨0, 0⟩ g0 =
      Except.error "KeyError: date" :=
  claim6_amended (-1) (by decide) 5 none none "D" 50 (1/50) 42 ssHalf ⟨0, 0⟩ g0

/-! ## C2 and C8: per-payment anomaly lemmas -/

/-- With the anomaly flag down, beneficiary selection adds no reason. -/
theorem pmSelectBenef_false (ω : Oracle) (pool : List Beneficiary) (k : Nat) :
    (pmSelectBenef ω pool false k).2.1 = [] := by
  simp [pmSelectBenef]

/-- With the anomaly flag down, the amount stage adds no reason. -/
theorem pmAmountSel_false (ω : Oracle) (avg : ℚ) (rs : List String) (k : Nat) :
    (pmAmountSel ω avg false rs k).2.1 = rs := by
  simp [pmAmountSel]

/-- With the anomaly flag down, the round-amount stage adds no reason. -/
theorem pmRoundSel_false (ω : Oracle) (a : ℚ) (rs : List String) (k : Nat) :
    (pmRoundSel ω a false rs k).2.1 = rs := by
  simp [pmRoundSel]

/-- With the anomaly flag down, the hour stage adds no reason. -/
theorem pmTimeSel_false (ω : Oracle) (rs : List String) (k : Nat) :
    (pmTimeSel ω false rs k).2.1 = rs := by
  simp [pmTimeSel]

/-- The hour stage either keeps the reasons or appends `UNUSUAL_TIME`. -/
theorem pmTimeSel_reasons (ω : Oracle) (a : Bool) (rs : List String) (k : Nat) :
    (pmTimeSel ω a rs k).2.1 = rs ∨
      (pmTimeSel ω a rs k).2.1 = rs ++ ["UNUSUAL_TIME"] := by
  simp only [pmTimeSel]
  split_ifs <;> simp

/-- A reason present before the hour stage survives into the joined
`anomaly_reasons` field. -/
theorem pmReasonsField (ω : Oracle) (a : Bool) (rs : List String) (k : Nat)
    (x : String) (hx : x ∈ rs) :
    ∃ rl, x ∈ rl ∧
      (if (pmTimeSel ω a rs k).2.1.isEmpty then none
       else some (String.intercalate "|" (pmTimeSel ω a rs k).2.1)) =
        some (String.intercalate "|" rl) := by
  rcases pmTimeSel_reasons ω a rs k with ht | ht <;> rw [ht]
  · refine ⟨rs, hx, ?_⟩
    have hne : rs ≠ [] := by rintro rfl; simp at hx
    simp [List.isEmpty_iff, hne]
  · refine ⟨rs ++ ["UNUSUAL_TIME"], by simp [hx], ?_⟩
    simp [List.isEmpty_iff]

/-- Any row built by `pmPayment` with non-`None` `anomaly_reasons` has
`is_anomaly` true: reasons are only accumulated while the flag is up, or by
the high-risk override that also raises the flag. -/
theorem pmPayment_reasons_flag (ω : Oracle) (pool : List Beneficiary)
    (anomaly_rate : ℚ) (date : DateTime) (dayOff i k : Nat) :
    (pmPayment ω pool anomaly_rate date dayOff i k).1.anomaly_reasons ≠ none →
    (pmPayment ω pool anomaly_rate date dayOff i k).1.is_anomaly = true := by
  simp only [pmPayment, npRandom]
  intro hne
  by_cases h0 : ω k < anomaly_rate
  · simp [h0]
  · by_cases hHR :
      (pmSelectBenef ω pool (decide (ω k < anomaly_rate)) (k + 1)).1.country ∈ pmHighRisk
    · simp [hHR]
    · exfalso
      apply hne
      have hd : decide (ω k < anomaly_rate) = false := by simp [h0]
      rw [hd] at hHR
      simp [hd, hHR, pmTimeSel_false, pmRoundSel_false, pmAmountSel_false,
        pmSelectBenef_false]

/-- Any row built by `pmPayment` whose beneficiary country is high-risk has
`is_anomaly` true and `HIGH_RISK_COUNTRY` among its joined reasons. -/
theorem pmPayment_high_risk (ω : Oracle) (pool : List Beneficiary)
    (anomaly_rate : ℚ) (date : DateTime) (dayOff i k : Nat) :
    (pmPayment ω pool anomaly_rate date dayOff i k).1.beneficiary_country ∈ pmHighRisk →
    (pmPayment ω pool anomaly_rate date dayOff i k).1.is_anomaly = true ∧
      ∃ rl, "HIGH_RISK_COUNTRY" ∈ rl ∧
        (pmPayment ω pool anomaly_rate date dayOff i k).1.anomaly_reasons =
          some (String.intercalate "|" rl) := by
  simp only [pmPayment, npRandom]
  intro h
  have hHR :
      (pmSelectBenef ω pool (decide (ω k < anomaly_rate)) (k + 1)).1.country ∈ pmHighRisk := h
  refine ⟨by simp [hHR], ?_⟩
  simp only [hHR, decide_True, if_true]
  exact pmReasonsField ω _ _ _ "HIGH_RISK_COUNTRY" (by simp)

/-- Lifts a per-payment property to every row of the day's inner loop. -/
theorem pmPaymentsLoop_mem {P : PaymentRow → Prop} (ω : Oracle)
    (pool : List Beneficiary) (rate : ℚ) (date : DateTime) (dayOff : Nat)
    (hP : ∀ i k, P (pmPayment ω pool rate date dayOff i k).1) :
    ∀ m i k r, r ∈ (pmPaymentsLoop ω pool rate date dayOff m i k).1 → P r := by
  intro m
  induction m with
  | zero => intro i k r hr; simp [pmPaymentsLoop] at hr
  | succ m ih =>
    intro i k r hr
    simp only [pmPaymentsLoop, List.mem_cons] at hr
    rcases hr with h | h
    · subst h; exact hP i k
    · exact ih (i + 1) _ r h

/-- Lifts a per-payment property to every row of `generate_payments`'s day
loop. -/
theorem pmDaysLoop_mem {P : PaymentRow → Prop} (ω : Oracle)
    (pool : List Beneficiary) (rate : ℚ) (base : DateTime) (dc : Nat)
    (hP : ∀ date dayOff i k, P (pmPayment ω pool rate date dayOff i k).1) :
    ∀ ds k r, r ∈ (pmDaysLoop ω pool rate base dc ds k).1 → P r := by
  intro ds
  induction ds with
  | nil => intro k r hr; simp [pmDaysLoop] at hr
  | cons d rest ih =>
    intro k r hr
    simp only [pmDaysLoop] at hr
    split at hr
    · exact ih _ r hr
    · simp only [List.mem_append] at hr
      rcases hr with h | h
      · exact pmPaymentsLoop_mem ω pool rate _ d (hP _ d) _ _ _ r h
      · exact ih _ r h

set_option maxRecDepth 100000 in
/-- C2, counterexample: a concrete run of `generate_payments` (anomaly flag
drawn true, yet no reason gate fires and the beneficiary is not high-risk)
emits a row with `is_anomaly` true and `anomaly_reasons` `None`, refuting
the claim that the flag implies a non-empty reason list. -/
theorem claim2_counterexample :
    ∃ r ∈ generate_payments 1 50 (3/4) 42 ssFlagNoReason ⟨5, 0⟩ g0,
      r.is_anomaly = true ∧ r.anomaly_reasons = none := by decide

/-- C2 (amended): the converse direction holds — every row of
`generate_payments` with a non-`None` `anomaly_reasons` field has
`is_anomaly` true (reasons are accumulated only while the flag is up, or by
the high-risk override that raises it); the flag may be true with
`anomaly_reasons = None` when no reason gate fires. -/
theorem claim2_amended (days : Int) (daily_count : Nat) (anomaly_rate : ℚ)
    (seed : Nat) (ss : Nat → Oracle) (now : DateTime) (g : RNGState)
    (r : PaymentRow)
    (hr : r ∈ generate_payments days daily_count anomaly_rate seed ss now g)
    (hne : r.anomaly_reasons ≠ none) : r.is_anomaly = true := by
  simp only [generate_payments] at hr
  exact @pmDaysLoop_mem
    (fun r => r.anomaly_reasons ≠ none → r.is_anomaly = true)
    (ss seed) _ anomaly_rate _ daily_count
    (fun date dayOff i k =>
      pmPayment_reasons_flag (ss seed) _ anomaly_rate date dayOff i k)
    _ _ r hr hne

set_option maxRecDepth 100000 in
/-- C2 witness: the amended implication applied to a concrete flagged row
whose reason list is non-empty. -/
theorem claim2_witness : pmHighRiskRow.is_anomaly = true :=
  claim2_amended 1 50 (3/4) 42 ssHighRisk ⟨5, 0⟩ g0 pmHighRiskRow
    (by decide) (by decide)

/-- C8: every payment row whose beneficiary country is in the high-risk
list has `is_anomaly` true and `HIGH_RISK_COUNTRY` among its anomaly
reasons, regardless of the earlier anomaly-flag draw. -/
theorem claim8_high_risk (days : Int) (daily_count : Nat) (anomaly_rate : ℚ)
    (seed : Nat) (ss : Nat → Oracle) (now : DateTime) (g : RNGState)
    (r : PaymentRow)
    (hr : r ∈ generate_payments days daily_count anomaly_rate seed ss now g)
    (hc : r.beneficiary_country ∈ pmHighRisk) :
    r.is_anomaly = true ∧
      ∃ rl, "HIGH_RISK_COUNTRY" ∈ rl ∧
        r.anomaly_reasons = some (String.intercalate "|" rl) := by
  simp only [generate_payments] at hr
  exact @pmDaysLoop_mem
    (fun r => r.beneficiary_country ∈ pmHighRisk →
      r.is_anomaly = true ∧ ∃ rl, "HIGH_RISK_COUNTRY" ∈ rl ∧
        r.anomaly_reasons = some (String.intercalate "|" rl))
    (ss seed) _ anomaly_rate _ daily_count
    (fun date dayOff i k =>
      pmPayment_high_risk (ss seed) _ anomaly_rate date dayOff i k)
    _ _ r hr hc

set_option maxRecDepth 100000 in
/-- C8 witness: the high-risk property applied to a concrete run whose one
payment selects a new beneficiary in `RU`. -/
theorem claim8_witness :
    pmHighRiskRow.is_anomaly = true ∧
      ∃ rl, "HIGH_RISK_COUNTRY" ∈ rl ∧
        pmHighRiskRow.anomaly_reasons = some (String.intercalate "|" rl) :=
  claim8_high_risk 1 50 (3/4) 42 ssHighRisk ⟨5, 0⟩ g0 pmHighRiskRow
    (by decide) (by decide)

/-! ## C7 -/

/-- Cursor of the FX trace at the start of step `i > 0`: steps `0, …, i-1`
consume exactly the `2*i - 1` values `k0, …, k0 + 2*i - 2`. -/
theorem fxTrace_cursor (ω : Oracle) (vol base : ℚ) (k0 : Nat) :
    ∀ i, 0 < i → (fxTrace ω vol base k0 i).2 = k0 + (2 * i - 1) := by
  intro i
  induction i with
  | zero => intro h; exact absurd h (by simp)
  | succ i ih =>
    intro _
    rcases Nat.eq_zero_or_pos i with h0 | hpos
    · subst h0; simp [fxTrace, fxKAfterMult]
    · have hc := ih hpos
      simp only [fxTrace, fxKAfterMult, hpos, if_pos, hc]
      omega

/-- C7, counterexample: at step 1 the volatility multiplier applied by
`generate_fx_rates`'s trace is not a function of the prior step's normal
draw (step 0 consumed only the draw at cursor 0): it uses the fresh draw at
cursor 1. -/
theorem claim7_counterexample :
    fxVolMult omega7 1 (fxTrace omega7 (3/200) 34 0 1).2 ≠
      1 + (1/2) * |omega7 0| := by
  decide

/-- C7 (amended): for every step `i > 0`, the volatility multiplier applied
to the return's standard deviation equals one plus half the magnitude of a
fresh standard-normal draw consumed at step `i` itself — the first oracle
value of step `i`, at cursor `k0 + 2*i - 1`, the draws of earlier steps
being exactly the values below that cursor. -/
theorem claim7_amended (ω : Oracle) (vol base : ℚ) (k0 i : Nat) (h : 0 < i) :
    (fxTrace ω vol base k0 i).2 = k0 + (2 * i - 1) ∧
    fxVolMult ω i (fxTrace ω vol base k0 i).2 =
      1 + (1/2) * |ω (k0 + (2 * i - 1))| := by
  have hc := fxTrace_cursor ω vol base k0 i h
  exact ⟨hc, by rw [hc]; simp [fxVolMult, h]⟩

/-- C7 witness: the amended statement at step 1 of a concrete trace. -/
theorem claim7_witness :
    (fxTrace omega7 (3/200) 34 0 1).2 = 0 + (2 * 1 - 1) ∧
    fxVolMult omega7 1 (fxTrace omega7 (3/200) 34 0 1).2 =
      1 + (1/2) * |omega7 (0 + (2 * 1 - 1))| :=
  claim7_amended omega7 (3/200) 34 0 1 (by decide)

/-! ## C5 -/

/-- C5: soft mean reversion in both random-walk generators.  The reversion
applied after each return is exactly the thresholded blend (10% threshold
and 99%/1% blend for FX, 30% and 98%/2% for commodities), and the published
series report it: FX row `i`'s `mid` is the rounded post-reversion running
rate of step `i`, and each commodity step's row reports the rounded
post-reversion price while the loop recurses on that price. -/
theorem claim5_mean_reversion (ω : Oracle) (pair : String) (bd : DateTime)
    (hourly : Bool) (periods k0 i : Nat) (hi : i < periods)
    (date : DateTime) (gasS dieS common : ℚ) (c : String) (rest : List String)
    (prices : String → ℚ) (k : Nat) (b r : ℚ) :
    (fxRevert b r = if |r / b - 1| > 1/10 then r * (99/100) + b * (1/100) else r) ∧
    (cmdRevert b r = if |r / b - 1| > 3/10 then r * (49/50) + b * (1/50) else r) ∧
    (((fxPairRows ω pair bd hourly periods k0).get? i).map FxRow.mid =
      some (roundTo 6 (fxRevert (fxBaseRate pair)
        (fxPreRate ω (fxVolatility pair) i
          (fxTrace ω (fxVolatility pair) (fxBaseRate pair) k0 i).1
          (fxTrace ω (fxVolatility pair) (fxBaseRate pair) k0 i).2)))) ∧
    ((cmdDayLoop ω date gasS dieS common (c :: rest) prices k).1.head?.map
        CommodityRow.close =
      some (roundTo 4 (cmdRevert ((cmdBasePrice c).getD 0)
        (prices c * (1 + (common * (7/10) + (0 + (cmdVolatility c).getD 0 * ω k) * (3/10) +
          cmdSeasonal c gasS dieS)))))) ∧
    ((cmdDayLoop ω date gasS dieS common (c :: rest) prices k).1.tail =
      (cmdDayLoop ω date gasS dieS common rest
        (fun x => if x = c then
          cmdRevert ((cmdBasePrice c).getD 0)
            (prices c * (1 + (common * (7/10) + (0 + (cmdVolatility c).getD 0 * ω k) * (3/10) +
              cmdSeasonal c gasS dieS)))
          else prices x) (k + 5)).1) := by
  refine ⟨rfl, rfl, ?_, rfl, rfl⟩
  simp only [fxPairRows, List.get?_map, List.get?_range hi, Option.map_some]
  rfl

/-- C5 witness: the statement at step 0 of a one-period FX run and the head
commodity step of a concrete day. -/
theorem claim5_witness :
    (fxRevert 1 2 = if |(2 : ℚ) / 1 - 1| > 1/10 then 2 * (99/100) + 1 * (1/100) else 2) ∧
    (cmdRevert 1 2 = if |(2 : ℚ) / 1 - 1| > 3/10 then 2 * (49/50) + 1 * (1/50) else 2) ∧
    (((fxPairRows halfOracle "USD/TRY" ⟨0, 0⟩ false 1 0).get? 0).map FxRow.mid =
      some (roundTo 6 (fxRevert (fxBaseRate "USD/TRY")
        (fxPreRate halfOracle (fxVolatility "USD/TRY") 0
          (fxTrace halfOracle (fxVolatility "USD/TRY") (fxBaseRate "USD/TRY") 0 0).1
          (fxTrace halfOracle (fxVolatility "USD/TRY") (fxBaseRate "USD/TRY") 0 0).2)))) ∧
    (((cmdDayLoop halfOracle ⟨0, 0⟩ (1/1000) (-3/10000) (1/200) ("BRENT" :: [])
        (fun _ => 80) 0).1.head?.map CommodityRow.close) =
      some (roundTo 4 (cmdRevert ((cmdBasePrice "BRENT").getD 0)
        (80 * (1 + ((1/200) * (7/10) + (0 + (cmdVolatility "BRENT").getD 0 * halfOracle 0) * (3/10) +
          cmdSeasonal "BRENT" (1/1000) (-3/10000))))))) ∧
    (((cmdDayLoop halfOracle ⟨0, 0⟩ (1/1000) (-3/10000) (1/200) ("BRENT" :: [])
        (fun _ => 80) 0).1.tail) =
      (cmdDayLoop halfOracle ⟨0, 0⟩ (1/1000) (-3/10000) (1/200) []
        (fun x => if x = "BRENT" then
          cmdRevert ((cmdBasePrice "BRENT").getD 0)
            (80 * (1 + ((1/200) * (7/10) + (0 + (cmdVolatility "BRENT").getD 0 * halfOracle 0) * (3/10) +
              cmdSeasonal "BRENT" (1/1000) (-3/10000))))
          else 80) (0 + 5)).1) :=
  claim5_mean_reversion halfOracle "USD/TRY" ⟨0, 0⟩ false 1 0 0 (by decide)
    ⟨0, 0⟩ (1/1000) (-3/10000) (1/200) "BRENT" [] (fun _ => 80) 0 1 2

/-! ## Commodity table structure (used by C3 and C4) -/

/-- Every row of a commodity day block carries the block's date and one of
its commodities. -/
theorem cmdDayLoop_mem (ω : Oracle) (date : DateTime) (gasS dieS common : ℚ) :
    ∀ (cs : List String) (prices : String → ℚ) (k : Nat) (r : CommodityRow),
      r ∈ (cmdDayLoop ω date gasS dieS common cs prices k).1 →
      r.commodity ∈ cs ∧ r.date = date := by
  intro cs
  induction cs with
  | nil => intro prices k r hr; simp [cmdDayLoop] at hr
  | cons c rest ih =>
    intro prices k r hr
    simp only [cmdDayLoop, List.mem_cons] at hr
    rcases hr with h | h
    · subst h; exact ⟨by simp, rfl⟩
    · obtain ⟨h1, h2⟩ := ih _ _ r h
      exact ⟨by simp [h1], h2⟩

/-- In a day block over distinct commodities, filtering on a commodity
present in the list leaves exactly one row, dated with the block's date. -/
theorem cmdDayLoop_filter (ω : Oracle) (date : DateTime) (gasS dieS common : ℚ)
    (c : String) :
    ∀ (cs : List String) (prices : String → ℚ) (k : Nat), cs.Nodup → c ∈ cs →
      ((cmdDayLoop ω date gasS dieS common cs prices k).1.filter
        (fun r => r.commodity == c)).map (fun r => r.date) = [date] := by
  intro cs
  induction cs with
  | nil => intro _ _ _ hmem; simp at hmem
  | cons c' rest ih =>
    intro prices k hnd hmem
    have hndr : rest.Nodup := (List.nodup_cons.mp hnd).2
    have hnmem : c' ∉ rest := (List.nodup_cons.mp hnd).1
    rcases List.mem_cons.mp hmem with heq | hm
    · subst heq
      have hfil : ∀ (prices' : String → ℚ) (k' : Nat),
          ((cmdDayLoop ω date gasS dieS common rest prices' k').1.filter
            (fun r => r.commodity == c)) = [] := by
        intro prices' k'
        rw [List.filter_eq_nil_iff]
        intro r hrm
        obtain ⟨h1, _⟩ := cmdDayLoop_mem ω date gasS dieS common rest _ _ r hrm
        simp only [beq_iff_eq]
        intro hEq
        exact hnmem (hEq ▸ h1)
      simp only [cmdDayLoop, List.filter_cons]
      simp [hfil]
    · have hne : c' ≠ c := fun hEq => hnmem (hEq ▸ hm)
      simp only [cmdDayLoop, List.filter_cons]
      rw [if_neg (by simp [hne])]
      exact ih _ _ hndr hm

/-- Across the whole commodity run, filtering on a commodity present in the
distinct commodity list yields exactly one row per requested day, in day
order. -/
theorem cmdDaysLoop_filter (ω : Oracle) (base : DateTime) (cs : List String)
    (c : String) (hnd : cs.Nodup) (hc : c ∈ cs) :
    ∀ (ds : List Nat) (prices : String → ℚ) (k : Nat),
      ((cmdDaysLoop ω base cs ds prices k).1.filter
        (fun r => r.commodity == c)).map (fun r => r.date) =
        ds.map (fun (d : Nat) => base.addDays d) := by
  intro ds
  induction ds with
  | nil => intro prices k; simp [cmdDaysLoop]
  | cons d rest ih =>
    intro prices k
    simp only [cmdDaysLoop, List.filter_append, List.map_append, List.map_cons]
    rw [cmdDayLoop_filter ω _ _ _ _ c _ _ _ hnd hc, ih]
    rfl

/-- Every commodity row's date is one of the requested days. -/
theorem cmdDaysLoop_mem (ω : Oracle) (base : DateTime) (cs : List String) :
    ∀ (ds : List Nat) (prices : String → ℚ) (k : Nat) (r : CommodityRow),
      r ∈ (cmdDaysLoop ω base cs ds prices k).1 →
      r.commodity ∈ cs ∧ ∃ o ∈ ds, r.date = base.addDays o := by
  intro ds
  induction ds with
  | nil => intro prices k r hr; simp [cmdDaysLoop] at hr
  | cons d rest ih =>
    intro prices k r hr
    simp only [cmdDaysLoop, List.mem_append] at hr
    rcases hr with h | h
    · obtain ⟨h1, h2⟩ := cmdDayLoop_mem ω _ _ _ _ cs _ _ r h
      exact ⟨h1, d, by simp, h2⟩
    · obtain ⟨h1, o, ho, h2⟩ := ih _ _ r h
      exact ⟨h1, o, by simp [ho], h2⟩

/-! ## Cash-flow table structure (used by C3) -/

/-- Membership in an insertion step. -/
theorem mem_insertByLe {α : Type} (le : α → α → Bool) (a x : α) :
    ∀ (l : List α), x ∈ insertByLe le a l ↔ x = a ∨ x ∈ l := by
  intro l
  induction l with
  | nil => simp [insertByLe]
  | cons b t ih =>
    simp only [insertByLe]
    split
    · simp [List.mem_cons]
    · rw [List.mem_cons, ih, List.mem_cons]
      tauto

/-- The date sort permutes membership only. -/
theorem mem_sortByLe {α : Type} (le : α → α → Bool) (x : α) (l : List α) :
    x ∈ sortByLe le l ↔ x ∈ l := by
  induction l with
  | nil => simp [sortByLe]
  | cons b t ih =>
    simp only [sortByLe, List.foldr_cons] at ih ⊢
    rw [mem_insertByLe]
    simp [ih]

/-- Receivable rows carry the cell's date. -/
theorem cfReceivable_date (ω : Oracle) (date : DateTime) (a c : String)
    (m : ℚ) (txn k : Nat) (r : CashFlowRow)
    (hr : r ∈ (cfReceivable ω date a c m txn k).1) : r.date = date := by
  simp only [cfReceivable] at hr
  split at hr
  · rw [List.mem_singleton] at hr; subst hr; rfl
  · simp at hr

/-- Interest rows carry the cell's date. -/
theorem cfInterest_date (ω : Oracle) (date : DateTime) (a c : String)
    (txn k : Nat) (r : CashFlowRow)
    (hr : r ∈ (cfInterest ω date a c txn k).1) : r.date = date := by
  simp only [cfInterest] at hr
  split at hr
  · rw [List.mem_singleton] at hr; subst hr; rfl
  · simp at hr

/-- Supplier rows carry the cell's date. -/
theorem cfSupplierLoop_date (ω : Oracle) (date : DateTime) (a c : String) :
    ∀ (m txn k : Nat) (r : CashFlowRow),
      r ∈ (cfSupplierLoop ω date a c m txn k).1 → r.date = date := by
  intro m
  induction m with
  | zero => intro txn k r hr; simp [cfSupplierLoop] at hr
  | succ m ih =>
    intro txn k r hr
    simp only [cfSupplierLoop, List.mem_cons] at hr
    rcases hr with h | h
    · subst h; rfl
    · exact ih _ _ r h

/-- Salary rows carry the cell's date. -/
theorem cfSalary_date (ω : Oracle) (date : DateTime) (a c : String)
    (txn k : Nat) (r : CashFlowRow)
    (hr : r ∈ (cfSalary ω date a c txn k).1) : r.date = date := by
  simp only [cfSalary] at hr
  split at hr
  · rw [List.mem_singleton] at hr; subst hr; rfl
  · simp at hr

/-- Tax rows carry the cell's date. -/
theorem cfTax_date (ω : Oracle) (date : DateTime) (a c : String) (q : ℚ)
    (txn k : Nat) (r : CashFlowRow)
    (hr : r ∈ (cfTax ω date a c q txn k).1) : r.date = date := by
  simp only [cfTax] at hr
  split at hr
  · rw [List.mem_singleton] at hr; subst hr; rfl
  · simp at hr

/-- Every row of a (day, account) cell carries the cell's date, and cells
only emit rows on non-weekend days. -/
theorem cfCell_mem (ω : Oracle) (date : DateTime) (aIdx : Nat) (cur : String)
    (txn k : Nat) (r : CashFlowRow)
    (hr : r ∈ (cfCell ω date aIdx cur txn k).1) :
    r.date = date ∧ date.weekday < 5 := by
  simp only [cfCell] at hr
  by_cases hw : date.weekday ≥ 5
  · rw [if_pos hw] at hr; simp at hr
  · rw [if_neg hw] at hr
    refine ⟨?_, by omega⟩
    simp only [List.mem_append] at hr
    rcases hr with ((((h | h) | h) | h) | h)
    · exact cfReceivable_date _ _ _ _ _ _ _ r h
    · exact cfInterest_date _ _ _ _ _ _ r h
    · exact cfSupplierLoop_date _ _ _ _ _ _ _ r h
    · exact cfSalary_date _ _ _ _ _ _ r h
    · exact cfTax_date _ _ _ _ _ _ _ r h

/-- Every row of the inner account loop carries the day's date. -/
theorem cfAccountsLoop_mem (ω : Oracle) (currencies : List String)
    (date : DateTime) :
    ∀ (accts : List Nat) (txn k : Nat) (r : CashFlowRow),
      r ∈ (cfAccountsLoop ω currencies date accts txn k).1 →
      r.date = date ∧ date.weekday < 5 := by
  intro accts
  induction accts with
  | nil => intro txn k r hr; simp [cfAccountsLoop] at hr
  | cons a rest ih =>
    intro txn k r hr
    simp only [cfAccountsLoop, List.mem_append] at hr
    rcases hr with h | h
    · exact cfCell_mem _ _ _ _ _ _ r h
    · exact ih _ _ r h

/-- Every cash-flow row is dated inside the requested window, on a
non-weekend day. -/
theorem cfDaysLoop_mem (ω : Oracle) (currencies : List String)
    (base : DateTime) (n : Nat) :
    ∀ (ds : List Nat) (txn k : Nat) (r : CashFlowRow),
      r ∈ (cfDaysLoop ω currencies base n ds txn k).1 →
      ∃ o ∈ ds, r.date = base.addDays o ∧ r.date.weekday < 5 := by
  intro ds
  induction ds with
  | nil => intro txn k r hr; simp [cfDaysLoop] at hr
  | cons d rest ih =>
    intro txn k r hr
    simp only [cfDaysLoop, List.mem_append] at hr
    rcases hr with h | h
    · obtain ⟨h1, h2⟩ := cfAccountsLoop_mem ω currencies _ _ _ _ r h
      exact ⟨d, by simp, h1, by rw [h1]; exact h2⟩
    · obtain ⟨o, ho, h1, h2⟩ := ih _ _ r h
      exact ⟨o, by simp [ho], h1, h2⟩

/-- Unfolds a successful default-commodity run: the long table is the raw
day-loop output and the pivot is its `cmdPivot`. -/
theorem generate_commodity_prices_ok
    (days : Int) (seed : Nat) (ss : Nat → Oracle) (now : DateTime)
    (g : RNGState) (rows : List CommodityRow) (pv : CommodityPivot)
    (h : generate_commodity_prices days none seed ss now g = Except.ok (rows, pv)) :
    rows = (cmdDaysLoop (ss seed) (now.subDays days)
      ["BRENT", "WTI", "GASOLINE", "DIESEL", "JET_FUEL"]
      (List.range days.toNat) (fun c => (cmdBasePrice c).getD 0) 0).1 ∧
    cmdPivot rows = Except.ok pv := by
  simp only [generate_commodity_prices, set_seed, Option.getD_none] at h
  rw [show (List.any ["BRENT", "WTI", "GASOLINE", "DIESEL", "JET_FUEL"]
    (fun c => (cmdBasePrice c).isNone)) = false from rfl] at h
  simp only [Bool.false_eq_true, if_false] at h
  rcases hp : cmdPivot (cmdDaysLoop (ss seed) (now.subDays days)
      ["BRENT", "WTI", "GASOLINE", "DIESEL", "JET_FUEL"]
      (List.range days.toNat) (fun c => (cmdBasePrice c).getD 0) 0).1
    with e | pv'
  · rw [hp] at h; simp [Except.map] at h
  · rw [hp] at h
    simp only [Except.map, Except.ok.injEq, Prod.mk.injEq] at h
    obtain ⟨h1, h2⟩ := h
    subst h1
    exact ⟨rfl, by rw [hp, h2]⟩

/-! ## C3 and C4 -/

set_option maxRecDepth 100000 in
/-- C3, counterexample: a 7-day default-parameter cash-flow run (window
Monday-Sunday) covers only 5 distinct calendar days — weekend days generate
no transactions at all — refuting "exactly the requested number of distinct
calendar days". -/
theorem claim3_counterexample :
    generate_cash_flows 7 1 none 42 ssTenth ⟨11, 0⟩ g0 = Except.ok cfRowsW ∧
    (cfRowsW.map (fun r => r.date)).dedup.length = 5 ∧ (5 : Nat) ≠ 7 :=
  ⟨by rfl, by decide, by decide⟩

/-- C3 (amended): cash-flow rows all fall inside the requested window on
non-weekend days, so the table covers at most — not exactly — the requested
number of distinct calendar days; the long commodity table does contain, for
each commodity, exactly one row per requested day. -/
theorem claim3_amended
    (days : Int) (n_accounts : Nat) (base_date : Option DateTime) (seed : Nat)
    (ss : Nat → Oracle) (now : DateTime) (g : RNGState) (rows : List CashFlowRow)
    (hok : generate_cash_flows days n_accounts base_date seed ss now g =
      Except.ok rows)
    (r : CashFlowRow) (hr : r ∈ rows)
    (days2 : Int) (seed2 : Nat) (ss2 : Nat → Oracle) (now2 : DateTime)
    (g2 : RNGState) (rows2 : List CommodityRow) (pv : CommodityPivot)
    (hok2 : generate_commodity_prices days2 none seed2 ss2 now2 g2 =
      Except.ok (rows2, pv))
    (c : String) (hc : c ∈ ["BRENT", "WTI", "GASOLINE", "DIESEL", "JET_FUEL"]) :
    (∃ o, o < days.toNat ∧ r.date = (cfBase days base_date now).addDays o ∧
      r.date.weekday < 5) ∧
    (rows.map (fun r => r.date)).dedup.length ≤ days.toNat ∧
    ((rows2.filter (fun r => r.commodity == c)).map (fun r => r.date) =
      (List.range days2.toNat).map (fun (o : Nat) => (now2.subDays days2).addDays o)) := by
  simp only [generate_cash_flows, set_seed] at hok
  split at hok
  · simp at hok
  · simp only [Except.ok.injEq] at hok
    have hmem : ∀ r' ∈ rows, ∃ o, o < days.toNat ∧
        r'.date = (cfBase days base_date now).addDays o ∧ r'.date.weekday < 5 := by
      intro r' hr'
      rw [← hok, mem_sortByLe] at hr'
      obtain ⟨o, ho, h1, h2⟩ := cfDaysLoop_mem _ _ _ _ _ _ _ r' hr'
      exact ⟨o, List.mem_range.mp ho, h1, h2⟩
    refine ⟨hmem r hr, ?_, ?_⟩
    · have hnd : (rows.map (fun r => r.date)).dedup.Nodup := List.nodup_dedup _
      have hsub : (rows.map (fun r => r.date)).dedup ⊆
          (List.range days.toNat).map
            (fun (o : Nat) => (cfBase days base_date now).addDays o) := by
        intro x hx
        rw [List.mem_dedup] at hx
        obtain ⟨r', hr', rfl⟩ := List.mem_map.mp hx
        obtain ⟨o, ho, h1, _⟩ := hmem r' hr'
        exact List.mem_map.mpr ⟨o, List.mem_range.mpr ho, h1.symm⟩
      calc (rows.map (fun r => r.date)).dedup.length
          = (rows.map (fun r => r.date)).dedup.toFinset.card :=
            (List.toFinset_card_of_nodup hnd).symm
        _ ≤ ((List.range days.toNat).map
              (fun (o : Nat) => (cfBase days base_date now).addDays o)).toFinset.card :=
            Finset.card_le_card (fun x hx => by
              simp only [List.mem_toFinset] at hx ⊢; exact hsub hx)
        _ ≤ ((List.range days.toNat).map
              (fun (o : Nat) => (cfBase days base_date now).addDays o)).length :=
            List.toFinset_card_le _
        _ = days.toNat := by simp
    · obtain ⟨hrw, _⟩ :=
        generate_commodity_prices_ok days2 seed2 ss2 now2 g2 rows2 pv hok2
      subst hrw
      exact cmdDaysLoop_filter (ss2 seed2) _ _ c (by decide) hc _ _ _

set_option maxRecDepth 100000 in
/-- C3 witness: the amended statement applied to the concrete 7-day
cash-flow run and the concrete 1-day commodity run. -/
theorem claim3_witness :
    (∃ o, o < (7 : Int).toNat ∧
      cfRowsW.headI.date = (cfBase 7 none ⟨11, 0⟩).addDays o ∧
      cfRowsW.headI.date.weekday < 5) ∧
    (cfRowsW.map (fun r => r.date)).dedup.length ≤ (7 : Int).toNat ∧
    ((cmdRowsW.filter (fun r => r.commodity == "GASOLINE")).map (fun r => r.date) =
      (List.range (1 : Int).toNat).map
        (fun (o : Nat) => ((⟨20000, 0⟩ : DateTime).subDays 1).addDays o)) :=
  claim3_amended 7 1 none 42 ssTenth ⟨11, 0⟩ g0 cfRowsW (by rfl)
    cfRowsW.headI (by decide) 1 42 ssHalf ⟨20000, 0⟩ g0 cmdRowsW cmdPvW (by rfl)
    "GASOLINE" (by decide)

/-- For a commodity in the default list, every requested date has a row of
that commodity in the long table. -/
theorem cmdDaysLoop_find (ω : Oracle) (base : DateTime) (c : String)
    (hc : c ∈ ["BRENT", "WTI", "GASOLINE", "DIESEL", "JET_FUEL"])
    (ds : List Nat) (prices : String → ℚ) (k : Nat) (d : DateTime)
    (hd : d ∈ ds.map (fun (o : Nat) => base.addDays o)) :
    ∃ rc ∈ (cmdDaysLoop ω base ["BRENT", "WTI", "GASOLINE", "DIESEL", "JET_FUEL"]
        ds prices k).1,
      rc.commodity = c ∧ rc.date = d := by
  have hf := cmdDaysLoop_filter ω base _ c (by decide) hc ds prices k
  rw [← hf] at hd
  obtain ⟨rc, hrc, hdate⟩ := List.mem_map.mp hd
  rw [List.mem_filter] at hrc
  exact ⟨rc, hrc.1, by simpa using hrc.2, hdate⟩

/-- C4: in the pivoted table of a successful default-commodity run, every
index date carries both crack-spread columns, valued `GASOLINE*42 - BRENT`
and `DIESEL*42 - BRENT` from the wide `close` columns. -/
theorem claim4_crack_spreads
    (days : Int) (seed : Nat) (ss : Nat → Oracle) (now : DateTime)
    (g : RNGState) (rows : List CommodityRow) (pv : CommodityPivot)
    (hok : generate_commodity_prices days none seed ss now g =
      Except.ok (rows, pv))
    (d : DateTime) (hd : d ∈ pv.dates) :
    ∃ gq dq b fg fd,
      pv.close "GASOLINE" d = some gq ∧
      pv.close "DIESEL" d = some dq ∧
      pv.close "BRENT" d = some b ∧
      pv.gasoline_crack = some fg ∧ fg d = some (gq * 42 - b) ∧
      pv.diesel_crack = some fd ∧ fd d = some (dq * 42 - b) := by
  obtain ⟨hrw, hpv⟩ := generate_commodity_prices_ok days seed ss now g rows pv hok
  subst hrw
  simp only [cmdPivot] at hpv
  split at hpv
  · simp at hpv
  · split at hpv
    · simp at hpv
    · simp only [Except.ok.injEq] at hpv
      subst hpv
      simp only at hd ⊢
      -- d is one of the run's dates
      rw [List.mem_dedup] at hd
      obtain ⟨r0, hr0, rfl⟩ := List.mem_map.mp hd
      obtain ⟨_, o, ho, hdate⟩ := cmdDaysLoop_mem _ _ _ _ _ _ r0 hr0
      have hdm : r0.date ∈ (List.range days.toNat).map
          (fun (o : Nat) => (now.subDays days).addDays o) :=
        List.mem_map.mpr ⟨o, ho, hdate.symm⟩
      -- rows for each needed commodity at this date
      obtain ⟨rG, hrGmem, hrGc, hrGd⟩ :=
        cmdDaysLoop_find (ss seed) (now.subDays days) "GASOLINE" (by decide)
          (List.range days.toNat) (fun c => (cmdBasePrice c).getD 0) 0 _ hdm
      obtain ⟨rD, hrDmem, hrDc, hrDd⟩ :=
        cmdDaysLoop_find (ss seed) (now.subDays days) "DIESEL" (by decide)
          (List.range days.toNat) (fun c => (cmdBasePrice c).getD 0) 0 _ hdm
      obtain ⟨rB, hrBmem, hrBc, hrBd⟩ :=
        cmdDaysLoop_find (ss seed) (now.subDays days) "BRENT" (by decide)
          (List.range days.toNat) (fun c => (cmdBasePrice c).getD 0) 0 _ hdm
      have hfG : ∃ x, List.find?
          (fun (r : CommodityRow) => r.commodity == "GASOLINE" && r.date == r0.date) _ = some x :=
        Option.isSome_iff_exists.mp (List.find?_isSome.mpr
          ⟨rG, hrGmem, by simp [hrGc, hrGd]⟩)
      obtain ⟨xG, hxG⟩ := hfG
      have hfD : ∃ x, List.find?
          (fun (r : CommodityRow) => r.commodity == "DIESEL" && r.date == r0.date) _ = some x :=
        Option.isSome_iff_exists.mp (List.find?_isSome.mpr
          ⟨rD, hrDmem, by simp [hrDc, hrDd]⟩)
      obtain ⟨xD, hxD⟩ := hfD
      have hfB : ∃ x, List.find?
          (fun (r : CommodityRow) => r.commodity == "BRENT" && r.date == r0.date) _ = some x :=
        Option.isSome_iff_exists.mp (List.find?_isSome.mpr
          ⟨rB, hrBmem, by simp [hrBc, hrBd]⟩)
      obtain ⟨xB, hxB⟩ := hfB
      have hasG : List.any _ (fun (r : CommodityRow) => r.commodity == "GASOLINE") = true :=
        List.any_eq_true.mpr ⟨rG, hrGmem, by simp [hrGc]⟩
      have hasD : List.any _ (fun (r : CommodityRow) => r.commodity == "DIESEL") = true :=
        List.any_eq_true.mpr ⟨rD, hrDmem, by simp [hrDc]⟩
      have hasB : List.any _ (fun (r : CommodityRow) => r.commodity == "BRENT") = true :=
        List.any_eq_true.mpr ⟨rB, hrBmem, by simp [hrBc]⟩
      refine ⟨xG.close, xD.close, xB.close, ?_, ?_, ?_, ?_, ?_, ?_, ?_, ?_, ?_⟩
      rotate_left 2
      · dsimp only
        rw [hxG]
        rfl
      · dsimp only
        rw [hxD]
        rfl
      · dsimp only
        rw [hxB]
        rfl
      · dsimp only
        rw [if_pos (by simp [hasB, hasG])]
        exact rfl
      · dsimp only
        rw [hxG, hxB]
        rfl
      · dsimp only
        rw [if_pos (by simp [hasB, hasD])]
        exact rfl
      · dsimp only
        rw [hxD, hxB]
        rfl

set_option maxRecDepth 100000 in
/-- C4 witness: the crack-spread property at the single date of the
concrete 1-day commodity run. -/
theorem claim4_witness :
    ∃ gq dq b fg fd,
      cmdPvW.close "GASOLINE" ⟨19999, 0⟩ = some gq ∧
      cmdPvW.close "DIESEL" ⟨19999, 0⟩ = some dq ∧
      cmdPvW.close "BRENT" ⟨19999, 0⟩ = some b ∧
      cmdPvW.gasoline_crack = some fg ∧ fg ⟨19999, 0⟩ = some (gq * 42 - b) ∧
      cmdPvW.diesel_crack = some fd ∧ fd ⟨19999, 0⟩ = some (dq * 42 - b) :=
  claim4_crack_spreads 1 42 ssHalf ⟨20000, 0⟩ g0 cmdRowsW cmdPvW (by rfl)
    ⟨19999, 0⟩ (by decide)

/-! ## C9: the quarter-end multiplier is dead in `generate_cash_flows` -/

/-- The tax block never sees a multiplier other than 1: it fires only in
months 1, 4, 7, 10, where the quarter-end multiplier (1.5 only in months
3, 6, 9, 12) is 1. -/
theorem cfTax_eq_noquarter (ω : Oracle) (date : DateTime) (a c : String)
    (txn k : Nat) :
    cfTax ω date a c
      (if (date.month = 3 ∨ date.month = 6 ∨ date.month = 9 ∨ date.month = 12) ∧
          date.dayOfMonth ≥ 20 then 3/2 else 1) txn k =
    cfTaxNQ ω date a c txn k := by
  simp only [cfTax, cfTaxNQ]
  by_cases hg : (date.month = 1 ∨ date.month = 4 ∨ date.month = 7 ∨
      date.month = 10) ∧ date.dayOfMonth = 15
  · rw [if_pos hg, if_pos hg]
    have hq : ¬ ((date.month = 3 ∨ date.month = 6 ∨ date.month = 9 ∨
        date.month = 12) ∧ date.dayOfMonth ≥ 20) := by
      rcases hg.1 with h | h | h | h <;> rw [h] <;> simp
    rw [if_neg hq]
    simp
  · rw [if_neg hg, if_neg hg]

/-- Per-cell equality of the two variants. -/
theorem cfCell_eq_noquarter (ω : Oracle) (date : DateTime) (aIdx : Nat)
    (cur : String) (txn k : Nat) :
    cfCell ω date aIdx cur txn k = cfCellNQ ω date aIdx cur txn k := by
  simp only [cfCell, cfCellNQ]
  rw [cfTax_eq_noquarter]

/-- Account-loop equality of the two variants. -/
theorem cfAccountsLoop_eq_noquarter (ω : Oracle) (currencies : List String)
    (date : DateTime) :
    ∀ (accts : List Nat) (txn k : Nat),
      cfAccountsLoop ω currencies date accts txn k =
        cfAccountsLoopNQ ω currencies date accts txn k := by
  intro accts
  induction accts with
  | nil => intro txn k; rfl
  | cons a rest ih =>
    intro txn k
    simp only [cfAccountsLoop, cfAccountsLoopNQ, cfCell_eq_noquarter, ih]

/-- Day-loop equality of the two variants. -/
theorem cfDaysLoop_eq_noquarter (ω : Oracle) (currencies : List String)
    (base : DateTime) (n : Nat) :
    ∀ (ds : List Nat) (txn k : Nat),
      cfDaysLoop ω currencies base n ds txn k =
        cfDaysLoopNQ ω currencies base n ds txn k := by
  intro ds
  induction ds with
  | nil => intro txn k; rfl
  | cons d rest ih =>
    intro txn k
    simp only [cfDaysLoop, cfDaysLoopNQ, cfAccountsLoop_eq_noquarter, ih]

/-- C9: `generate_cash_flows` equals its variant with the quarter-end
multiplier removed - the multiplier is 1.5 only in months 3, 6, 9, 12, but
its sole use is the tax branch, which fires only in months 1, 4, 7, 10,
where it is 1, so outputs coincide on every input. -/
theorem claim9_quarter_multiplier_dead
    (days : Int) (n_accounts : Nat) (base_date : Option DateTime) (seed : Nat)
    (ss : Nat → Oracle) (now : DateTime) (g : RNGState) :
    generate_cash_flows days n_accounts base_date seed ss now g =
      generate_cash_flows_noquarter days n_accounts base_date seed ss now g := by
  simp only [generate_cash_flows, generate_cash_flows_noquarter,
    cfDaysLoop_eq_noquarter]

/-! ## C10: daily cash position invariants -/

/-- `getD` after `set` at the same in-range index. -/
theorem getD_set_self : ∀ (l : List ℚ) (j : Nat) (v : ℚ), j < l.length →
    (l.set j v).getD j 0 = v := by
  intro l j v h
  simp [List.getD_eq_getElem?_getD, List.getElem?_set_self, h]

/-- `getD` after `set` at a different index. -/
theorem getD_set_ne : ∀ (l : List ℚ) (i j : Nat) (v : ℚ), i ≠ j →
    (l.set i v).getD j 0 = l.getD j 0 := by
  intro l i j v h
  simp [List.getD_eq_getElem?_getD, List.getElem?_set_ne h]

/-- Rounding preserves non-negativity. -/
theorem roundTo_nonneg (d : Int) (x : ℚ) (h : 0 ≤ x) : 0 ≤ roundTo d x := by
  unfold roundTo
  have hp : (0 : ℚ) < (10 : ℚ) ^ d := zpow_pos (by norm_num) d
  apply div_nonneg _ (le_of_lt hp)
  have hz : (0 : ℤ) ≤ round (x * (10 : ℚ) ^ d) := by
    rw [round_eq]
    apply Int.le_floor.mpr
    have := mul_nonneg h (le_of_lt hp)
    push_cast
    linarith
  exact_mod_cast hz

/-- Field-level facts about one (day, account) step: the recorded opening
is the rounded incoming balance, the recorded closing is the rounded stored
balance (non-negative by the `max 0` clamp), other balances are untouched,
and the balance list keeps its length. -/
theorem dcpAccStep_spec (ω : Oracle) (date : DateTime) (cur : List String)
    (j : Nat) (bals : List ℚ) (k : Nat) :
    ((dcpAccStep ω date cur j bals k).1.opening_balance =
      roundTo 2 (bals.getD j 0)) ∧
    (0 ≤ (dcpAccStep ω date cur j bals k).1.closing_balance) ∧
    (j < bals.length →
      (dcpAccStep ω date cur j bals k).1.closing_balance =
        roundTo 2 ((dcpAccStep ω date cur j bals k).2.1.getD j 0)) ∧
    (∀ x, x ≠ j →
      (dcpAccStep ω date cur j bals k).2.1.getD x 0 = bals.getD x 0) ∧
    ((dcpAccStep ω date cur j bals k).2.1.length = bals.length) := by
  refine ⟨rfl, ?_, ?_, ?_, ?_⟩
  · exact roundTo_nonneg 2 _ (le_max_left 0 _)
  · intro hj
    show roundTo 2 _ = roundTo 2 ((bals.set j _).getD j 0)
    rw [getD_set_self _ _ _ hj]
  · intro x hx
    show (bals.set j _).getD x 0 = bals.getD x 0
    exact getD_set_ne _ _ _ _ (fun hEq => hx hEq.symm)
  · exact List.length_set _ _ _

/-- Structural account-loop invariant: row `i` reports the rounded incoming
balance of account `js[i]` as opening and the rounded outgoing balance as
closing (non-negative); balances of accounts outside `js` are untouched. -/
theorem dcpAccountsLoop_spec (ω : Oracle) (date : DateTime) (cur : List String) :
    ∀ (js : List Nat) (bals : List ℚ) (k : Nat), js.Nodup →
      (∀ x ∈ js, x < bals.length) →
      ((dcpAccountsLoop ω date cur js bals k).1.length = js.length) ∧
      ((dcpAccountsLoop ω date cur js bals k).2.1.length = bals.length) ∧
      (∀ i x, js.get? i = some x →
        ∃ row, (dcpAccountsLoop ω date cur js bals k).1.get? i = some row ∧
          row.opening_balance = roundTo 2 (bals.getD x 0) ∧
          row.closing_balance =
            roundTo 2 ((dcpAccountsLoop ω date cur js bals k).2.1.getD x 0) ∧
          0 ≤ row.closing_balance) ∧
      (∀ x, x ∉ js →
        (dcpAccountsLoop ω date cur js bals k).2.1.getD x 0 = bals.getD x 0) := by
  intro js
  induction js with
  | nil =>
    intro bals k _ _
    refine ⟨rfl, rfl, ?_, fun x _ => rfl⟩
    intro i x h
    simp at h
  | cons j js ih =>
    intro bals k hnd hlt
    have hjlen : j < bals.length := hlt j (by simp)
    have hnmem : j ∉ js := (List.nodup_cons.mp hnd).1
    have hndt : js.Nodup := (List.nodup_cons.mp hnd).2
    obtain ⟨hs1, hs2, hs3, hs4, hs5⟩ := dcpAccStep_spec ω date cur j bals k
    have hltt : ∀ x ∈ js, x < (dcpAccStep ω date cur j bals k).2.1.length := by
      intro x hx; rw [hs5]; exact hlt x (by simp [hx])
    obtain ⟨ih1, ih2, ih3, ih4⟩ :=
      ih (dcpAccStep ω date cur j bals k).2.1
        (dcpAccStep ω date cur j bals k).2.2 hndt hltt
    simp only [dcpAccountsLoop]
    refine ⟨by simp [ih1], by rw [ih2, hs5], ?_, ?_⟩
    · intro i x hix
      cases i with
      | zero =>
        simp only [List.get?_cons_zero, Option.some.injEq] at hix
        subst hix
        refine ⟨(dcpAccStep ω date cur j bals k).1, rfl, hs1, ?_, hs2⟩
        rw [hs3 hjlen, ih4 j hnmem]
      | succ i =>
        simp only [List.get?_cons_succ] at hix
        obtain ⟨row, hrow, ho, hc, hnn⟩ := ih3 i x hix
        refine ⟨row, by simpa using hrow, ?_, hc, hnn⟩
        rw [ho]
        have hxj : x ≠ j := fun hEq => hnmem (hEq ▸ List.get?_mem hix)
        rw [hs4 x hxj]
    · intro x hx
      have hxj : x ≠ j := fun hEq => hx (by simp [hEq])
      have hxjs : x ∉ js := fun hm => hx (by simp [hm])
      rw [ih4 x hxjs, hs4 x hxj]

/-- Day-level invariant of the cash-position run: the flattened table has
`n` rows per day; the first day's openings are the rounded initial
balances; and for each account, the opening recorded on day `d+1` equals
the closing recorded on day `d`. -/
theorem dcpDaysLoop_spec (ω : Oracle) (cur : List String) (base : DateTime)
    (n : Nat) :
    ∀ (ds : List Nat) (bals : List ℚ) (k : Nat), bals.length = n →
      ((dcpDaysLoop ω cur base n ds bals k).1.length = ds.length * n) ∧
      (∀ j r, j < n →
        (dcpDaysLoop ω cur base n ds bals k).1.get? j = some r →
        r.opening_balance = roundTo 2 (bals.getD j 0)) ∧
      (∀ d j r r', j < n →
        (dcpDaysLoop ω cur base n ds bals k).1.get? (d * n + j) = some r →
        (dcpDaysLoop ω cur base n ds bals k).1.get? ((d + 1) * n + j) = some r' →
        r'.opening_balance = r.closing_balance) := by
  intro ds
  induction ds with
  | nil =>
    intro bals k _
    refine ⟨by simp [dcpDaysLoop], ?_, ?_⟩
    · intro j r _ h; simp [dcpDaysLoop] at h
    · intro d j r r' _ h _; simp [dcpDaysLoop] at h
  | cons d0 ds ih =>
    intro bals k hbl
    obtain ⟨ha1, ha2, ha3, _⟩ := dcpAccountsLoop_spec ω (base.addDays d0) cur
      (List.range n) bals k (List.nodup_range n)
      (fun x hx => by rw [hbl]; exact List.mem_range.mp hx)
    have hdlen : (dcpAccountsLoop ω (base.addDays d0) cur (List.range n)
        bals k).1.length = n := by
      rw [ha1, List.length_range]
    have hblen2 : (dcpAccountsLoop ω (base.addDays d0) cur (List.range n)
        bals k).2.1.length = n := by
      rw [ha2, hbl]
    obtain ⟨ih1, ih2, ih3⟩ := ih _ _ hblen2
    simp only [dcpDaysLoop]
    refine ⟨?_, ?_, ?_⟩
    · rw [List.length_append, hdlen, ih1, List.length_cons]; ring
    · intro j r hj hr
      rw [List.get?_append (by rw [hdlen]; exact hj)] at hr
      obtain ⟨row, hrow, ho, _, _⟩ := ha3 j j (List.get?_range hj)
      rw [hrow] at hr
      injection hr with hEq
      subst hEq
      exact ho
    · intro d j r r' hj h1 h2
      cases d with
      | zero =>
        rw [show 0 * n + j = j by ring] at h1
        rw [show (0 + 1) * n + j = n + j by ring] at h2
        rw [List.get?_append (by rw [hdlen]; exact hj)] at h1
        rw [List.get?_append_right (by rw [hdlen]; exact Nat.le_add_right n j)] at h2
        rw [hdlen, Nat.add_sub_cancel_left] at h2
        obtain ⟨row, hrow, _, hc, _⟩ := ha3 j j (List.get?_range hj)
        rw [hrow] at h1
        injection h1 with hEq
        subst hEq
        rw [ih2 j r' hj h2, hc]
      | succ d =>
        rw [show (d + 1) * n + j = n + (d * n + j) by ring] at h1
        rw [show (d + 1 + 1) * n + j = n + ((d + 1) * n + j) by ring] at h2
        rw [List.get?_append_right (by rw [hdlen]; exact Nat.le_add_right n _)] at h1
        rw [List.get?_append_right (by rw [hdlen]; exact Nat.le_add_right n _)] at h2
        rw [hdlen, Nat.add_sub_cancel_left] at h1
        rw [hdlen, Nat.add_sub_cancel_left] at h2
        exact ih3 d j r r' hj h1 h2

/-- Every closing balance recorded by one account step is non-negative, so
by induction every row of the account loop has a non-negative closing. -/
theorem dcpAccountsLoop_nonneg (ω : Oracle) (date : DateTime)
    (cur : List String) :
    ∀ (js : List Nat) (bals : List ℚ) (k : Nat) (r : CashPosRow),
      r ∈ (dcpAccountsLoop ω date cur js bals k).1 → 0 ≤ r.closing_balance := by
  intro js
  induction js with
  | nil => intro bals k r hr; simp [dcpAccountsLoop] at hr
  | cons j js ih =>
    intro bals k r hr
    simp only [dcpAccountsLoop, List.mem_cons] at hr
    rcases hr with h | h
    · subst h; exact (dcpAccStep_spec ω date cur j bals k).2.1
    · exact ih _ _ r h

/-- Every row of the cash-position run has a non-negative closing. -/
theorem dcpDaysLoop_nonneg (ω : Oracle) (cur : List String) (base : DateTime)
    (n : Nat) :
    ∀ (ds : List Nat) (bals : List ℚ) (k : Nat) (r : CashPosRow),
      r ∈ (dcpDaysLoop ω cur base n ds bals k).1 → 0 ≤ r.closing_balance := by
  intro ds
  induction ds with
  | nil => intro bals k r hr; simp [dcpDaysLoop] at hr
  | cons d rest ih =>
    intro bals k r hr
    simp only [dcpDaysLoop, List.mem_append] at hr
    rcases hr with h | h
    · exact dcpAccountsLoop_nonneg ω _ cur _ _ _ r h
    · exact ih _ _ r h

/-- The initial balance list has one entry per account. -/
theorem dcpInitBalances_length (ω : Oracle) :
    ∀ (n k : Nat), (dcpInitBalances ω n k).1.length = n := by
  intro n
  induction n with
  | zero => intro k; rfl
  | succ n ih => intro k; simp [dcpInitBalances, ih]

/-- C10: in every `generate_daily_cash_position` table, all closing
balances are non-negative (the `max 0` clamp), and for each account the
opening balance of every day after the first equals that account's closing
balance of the previous day (the stored balance is carried over and both
records round the same stored value). -/
theorem claim10_cash_position (days : Int) (n_accounts : Nat) (seed : Nat)
    (ss : Nat → Oracle) (now : DateTime) (g : RNGState) (r : CashPosRow)
    (hr : r ∈ generate_daily_cash_position days n_accounts seed ss now g) :
    0 ≤ r.closing_balance ∧
    ∀ (d j : Nat) (r0 r1 : CashPosRow), j < n_accounts →
      (generate_daily_cash_position days n_accounts seed ss now g).get?
        (d * n_accounts + j) = some r0 →
      (generate_daily_cash_position days n_accounts seed ss now g).get?
        ((d + 1) * n_accounts + j) = some r1 →
      r1.opening_balance = r0.closing_balance := by
  constructor
  · simp only [generate_daily_cash_position, set_seed] at hr
    exact dcpDaysLoop_nonneg _ _ _ _ _ _ _ r hr
  · intro d j r0 r1 hj h0 h1
    simp only [generate_daily_cash_position, set_seed] at h0 h1
    obtain ⟨_, _, hchain⟩ := dcpDaysLoop_spec (ss seed) _ _ n_accounts
      (List.range days.toNat) _ _ (dcpInitBalances_length (ss seed) n_accounts _)
    exact hchain d j r0 r1 hj h0 h1

set_option maxRecDepth 100000 in
/-- C10 witness: the invariants applied to the concrete 2-day run's two
rows. -/
theorem claim10_witness :
    0 ≤ dcpRowsW.headI.closing_balance ∧
    (dcpRowsW.drop 1).headI.opening_balance = dcpRowsW.headI.closing_balance :=
  ⟨(claim10_cash_position 2 1 42 ssHalf ⟨20000, 0⟩ g0 dcpRowsW.headI
      (by decide)).1,
   (claim10_cash_position 2 1 42 ssHalf ⟨20000, 0⟩ g0 dcpRowsW.headI
      (by decide)).2
     0 0 dcpRowsW.headI ((dcpRowsW.drop 1).headI) (by decide) (by decide)
     (by decide)⟩
